import Mathlib

/-!
Verification of the mailtester email-validation core.

Shallow embedding of the repository's pipeline pieces:
  * `ResultFormatter.format` (packages/core/src/output/formatter.ts)
  * `ValidationOrchestrator.validate` (src/orchestrator.ts)
  * `BulkProcessor.process` (src/bulk/index.ts)
  * `RateLimiter` (packages/core/src/rate-limit/limiter.ts)
  * `calculateMXQuality` (packages/core/src/validators/mx.ts)
  * `performSMTPVerification` (packages/core/src/validators/smtp.ts)

Machine floats of the limiter are modelled as rationals, JS timestamps as
integers (milliseconds).  Network interactions are modelled by explicit
server scripts consumed in order.
-/

namespace Mailtester

/-- Error severity, from `types.ts` (`ErrorSeverity = warning | error | critical`). -/
inductive Severity where
  | warning
  | error
  | critical
deriving DecidableEq, Repr

/-- The `error` payload of a validator result (`ValidationError` interface). -/
structure VError where
  code : String
  message : String
  severity : Severity
deriving DecidableEq, Repr

/-- A single validator's outcome (`ValidatorResult` in `types.ts`). -/
structure ValidatorResult where
  valid : Bool
  validator : String
  error : Option VError := none
deriving DecidableEq, Repr

/-- `result.error?.severity` - severity of the outcome's error, if any. -/
def errSeverity (r : ValidatorResult) : Option Severity :=
  r.error.map (·.severity)

/-- The aggregated result built by `ResultFormatter.format` (metadata omitted:
timestamps and durations are wall-clock effects). -/
structure ValidationResult where
  valid : Bool
  email : String
  score : Nat
  reason : Option String := none
deriving DecidableEq, Repr

/-- The skip test of `formatter.ts` line 50:
`validatorName === 'typo' && result.error?.severity === 'warning'`. -/
def isTypoWarning (name : String) (r : ValidatorResult) : Bool :=
  name == "typo" && errSeverity r == some Severity.warning

/-- A results-map entry that the formatter counts as a real failure:
`!result.valid` and not the skipped typo-warning case. -/
def failsCounted (p : String × ValidatorResult) : Bool :=
  !p.2.valid && !(isTypoWarning p.1 p.2)

/-- The loop of `ResultFormatter.format` (formatter.ts lines 47-61): fold the
results map in insertion order, flipping `valid` and recording the first
failing validator's name, skipping failing typo outcomes of warning severity. -/
def computeValidReason :
    List (String × ValidatorResult) → Bool → Option String → Bool × Option String
  | [], v, reason => (v, reason)
  | (name, r) :: rest, v, reason =>
    if r.valid then computeValidReason rest v reason
    else if isTypoWarning name r then computeValidReason rest v reason
    else computeValidReason rest false (reason.orElse fun _ => some name)

/-- Lookup of a named entry in the results map. -/
def lookupResult (results : List (String × ValidatorResult)) (name : String) :
    Option ValidatorResult :=
  (results.find? (fun p => p.1 == name)).map (·.2)

/-- Points one validator contributes to the score (`calculateScore`). -/
def scorePart (results : List (String × ValidatorResult)) (name : String) (pts : Nat) : Nat :=
  match lookupResult results name with
  | some r => if r.valid then pts else 0
  | none => 0

/-- `ResultFormatter.calculateScore`: regex 20, typo 10, disposable 20, mx 20,
smtp 30, clamped to [0, 100]. -/
def calculateScore (results : List (String × ValidatorResult)) : Nat :=
  min 100
    (scorePart results "regex" 20 + scorePart results "typo" 10 +
      scorePart results "disposable" 20 + scorePart results "mx" 20 +
      scorePart results "smtp" 30)

/-- `ResultFormatter.format`: aggregate the results map into the final
`ValidationResult`. -/
def format (email : String) (results : List (String × ValidatorResult)) :
    ValidationResult :=
  let vr := computeValidReason results true none
  { valid := vr.1, email := email, score := calculateScore results, reason := vr.2 }

/-- An MX record (`{priority, exchange}`), from `mx.ts`. -/
structure MXRecord where
  priority : Nat
  exchange : String
deriving DecidableEq, Repr

/-- `calculateMXQuality` from `mx.ts` lines 189-208: 0 with no records, 10 for
A-only, 15 for one MX, 20 for several MX with distinct priorities, 18 for
several MX sharing one priority.  `new Set(priorities).size` is the number of
distinct priorities, modelled with `List.dedup`. -/
def calculateMXQuality (mxRecords : List MXRecord) (hasA : Bool) : Nat :=
  if mxRecords.length = 0 then
    if hasA then 10 else 0
  else if mxRecords.length = 1 then 15
  else
    let uniquePriorities := (mxRecords.map (·.priority)).dedup.length
    if 1 < uniquePriorities then 20 else 18

/-! ### Orchestrator (`src/orchestrator.ts`) -/

/-- What one enabled validator does when the orchestrator invokes it: either
it returns a `ValidatorResult`, or it throws (caught at orchestrator.ts line
95). -/
inductive StageBehavior where
  | outcome (r : ValidatorResult)
  | thrown (msg : String)
deriving DecidableEq, Repr

/-- One pipeline stage: its name, whether it is enabled, and what it does
when invoked. -/
structure StageSpec where
  name : String
  enabled : Bool
  behavior : StageBehavior
deriving DecidableEq, Repr

/-- The outcome the orchestrator synthesizes when a validator throws
(orchestrator.ts lines 99-108): `valid: false`, code `VALIDATION_ERROR`,
severity `error`. -/
def thrownOutcome (name msg : String) : ValidatorResult :=
  { valid := false, validator := name,
    error := some { code := "VALIDATION_ERROR", message := msg, severity := Severity.error } }

/-- The stage loop of `ValidationOrchestrator.validate` (orchestrator.ts lines
74-116): skip disabled stages, record each outcome, and - when `earlyExit` is
set - break as soon as a recorded outcome has `valid = false` (also after a
thrown error).  Returns the results map in insertion order. -/
def runStages (earlyExit : Bool) : List StageSpec → List (String × ValidatorResult)
  | [] => []
  | s :: rest =>
    if s.enabled then
      match s.behavior with
      | StageBehavior.outcome r =>
        (s.name, r) ::
          (if earlyExit && !r.valid then [] else runStages earlyExit rest)
      | StageBehavior.thrown msg =>
        (s.name, thrownOutcome s.name msg) ::
          (if earlyExit then [] else runStages earlyExit rest)
    else runStages earlyExit rest

/-- A stage's recorded outcome, had it been invoked in isolation. -/
def stageOutcome (s : StageSpec) : ValidatorResult :=
  match s.behavior with
  | StageBehavior.outcome r => r
  | StageBehavior.thrown msg => thrownOutcome s.name msg

/-- A stage whose recorded outcome fails (`!result.valid`); a thrown stage
always records a failing outcome. -/
def stageFails (s : StageSpec) : Bool :=
  !(stageOutcome s).valid || (match s.behavior with
    | StageBehavior.thrown _ => true
    | _ => false)

/-! ### Rate limiter (`packages/core/src/rate-limit/limiter.ts`)

JS floating-point token counts are modelled as rationals, `Date.now()`
timestamps as integers (milliseconds). -/

/-- Token bucket state (`TokenBucket` interface). -/
structure TokenBucket where
  tokens : ℚ
  capacity : ℚ
  lastRefill : ℤ
  refillRate : ℚ
deriving DecidableEq, Repr

/-- `RateLimiter.createBucket`: a fresh full bucket whose refill rate is
`capacity / window` tokens per second. -/
def createBucket (capacity window : ℚ) (now : ℤ) : TokenBucket :=
  { tokens := capacity, capacity := capacity, lastRefill := now,
    refillRate := capacity / window }

/-- `RateLimiter.refillBucket` (limiter.ts lines 130-142): lazy continuous
refill, capped at capacity; a non-positive elapsed time leaves the bucket
untouched. -/
def refillBucket (b : TokenBucket) (now : ℤ) : TokenBucket :=
  let elapsed : ℚ := ((now : ℚ) - (b.lastRefill : ℚ)) / 1000
  if elapsed ≤ 0 then b
  else
    { b with tokens := min b.capacity (b.tokens + elapsed * b.refillRate),
             lastRefill := now }

/-- The per-bucket admission step used by `RateLimiter.check` for each bucket:
refill, deny if `tokens < 1`, otherwise consume one token. -/
def bucketAdmit (b : TokenBucket) (now : ℤ) : Bool × TokenBucket :=
  let b1 := refillBucket b now
  if b1.tokens < 1 then (false, b1)
  else (true, { b1 with tokens := b1.tokens - 1 })

/-- Run `N` admission checks in a row against one bucket at a fixed instant,
counting how many were allowed. -/
def admitN : Nat → TokenBucket → ℤ → Nat × TokenBucket
  | 0, b, _ => (0, b)
  | n + 1, b, now =>
    let step := bucketAdmit b now
    let restResult := admitN n step.2 now
    ((if step.1 then 1 else 0) + restResult.1, restResult.2)

/-- `email.split('@')` at the character level (kernel-computable model of
JS `String.prototype.split` with a one-character separator). -/
def splitOnChar (sep : Char) : List Char → List (List Char)
  | [] => [[]]
  | c :: rest =>
    let r := splitOnChar sep rest
    if c = sep then [] :: r
    else
      match r with
      | [] => [[c]]
      | h :: t => (c :: h) :: t

/-- `RateLimiter.extractDomain`: the part after a single `@`, lowercased;
`null` when there is not exactly one `@` or the domain part is empty. -/
def extractDomain (email : String) : Option String :=
  match splitOnChar '@' email.data with
  | [_, d] => if d = [] then none else some (String.mk (d.map Char.toLower))
  | _ => none

/-- The rate limiter's mutable state: the optional global bucket, the lazily
populated per-domain bucket map, the per-domain configuration
`(requests, window)`, and the enabled flag. -/
structure LimiterState where
  globalBucket : Option TokenBucket
  domainBuckets : List (String × TokenBucket)
  perDomainConfig : Option (ℚ × ℚ)
  enabled : Bool
deriving DecidableEq, Repr

/-- Outcome of `RateLimiter.check`. -/
inductive CheckOutcome where
  | allowed
  | deniedGlobal
  | deniedDomain (domain : String)
deriving DecidableEq, Repr

/-- Update one domain's bucket in the map. -/
def setDomainBucket (m : List (String × TokenBucket)) (d : String) (b : TokenBucket) :
    List (String × TokenBucket) :=
  match m with
  | [] => [(d, b)]
  | (d0, b0) :: rest =>
    if d0 = d then (d0, b) :: rest else (d0, b0) :: setDomainBucket rest d b

/-- `RateLimiter.getDomainBucket`: look the domain up, creating a fresh full
bucket from the per-domain configuration on first use. -/
def getDomainBucket (st : LimiterState) (d : String) (now : ℤ) :
    Option (TokenBucket × LimiterState) :=
  match st.perDomainConfig with
  | none => none
  | some cfg =>
    match (st.domainBuckets.find? (fun p => p.1 = d)).map (·.2) with
    | some b => some (b, st)
    | none =>
      let b := createBucket cfg.1 cfg.2 now
      some (b, { st with domainBuckets := setDomainBucket st.domainBuckets d b })

/-- `RateLimiter.check` (limiter.ts lines 185-249): when enabled and the email
has a domain, refill-and-check the global bucket first (consuming a token on
success), then the per-domain bucket.  A per-domain denial leaves the already
consumed global token consumed. -/
def check (st : LimiterState) (email : String) (now : ℤ) :
    CheckOutcome × LimiterState :=
  if !st.enabled then (CheckOutcome.allowed, st)
  else
    match extractDomain email with
    | none => (CheckOutcome.allowed, st)
    | some d =>
      let afterGlobal :
          Option (LimiterState) :=
        match st.globalBucket with
        | none => some st
        | some g =>
          let step := bucketAdmit g now
          if step.1 then some { st with globalBucket := some step.2 }
          else none
      match afterGlobal, st.globalBucket with
      | none, some g =>
        (CheckOutcome.deniedGlobal, { st with globalBucket := some (bucketAdmit g now).2 })
      | none, none => (CheckOutcome.deniedGlobal, st)
      | some st1, _ =>
        match getDomainBucket st1 d now with
        | none => (CheckOutcome.allowed, st1)
        | some (b, st2) =>
          let step := bucketAdmit b now
          if step.1 then
            (CheckOutcome.allowed,
              { st2 with domainBuckets := setDomainBucket st2.domainBuckets d step.2 })
          else
            (CheckOutcome.deniedDomain d,
              { st2 with domainBuckets := setDomainBucket st2.domainBuckets d step.2 })

/-- Iterate `check` with the same email at a fixed instant, collecting the
outcomes. -/
def checkN : Nat → LimiterState → String → ℤ → List CheckOutcome × LimiterState
  | 0, st, _, _ => ([], st)
  | n + 1, st, email, now =>
    let step := check st email now
    let rest := checkN n step.2 email now
    (step.1 :: rest.1, rest.2)

/-! ### SMTP probe (`packages/core/src/validators/smtp.ts`)

`performSMTPVerification` is a straight-line protocol over one socket.  The
server is modelled as a script of events consumed in order: each
read/command round-trip consumes one event that is either a parsed response
`(code, message)` or a socket/timeout/parse failure.  Connection and TLS
handshake success are separate booleans.  The trace records the commands
sent and the socket operations, so resource-cleanup claims are statements
about the trace. -/

/-- One network round-trip as seen by the probe. -/
inductive NetEv where
  | resp (code : Nat) (message : String)
  | fail (msg : String)
deriving DecidableEq, Repr

/-- Observable probe actions: connecting, sending a command, upgrading to
TLS (with the server name used and whether self-signed certificates are
accepted), destroying the socket. -/
inductive Action where
  | connect
  | send (cmd : String)
  | upgradeTLS (servername : String) (allowSelfSigned : Bool)
  | destroy
deriving DecidableEq, Repr

/-- Probe configuration (`SMTPValidatorConfig` fields the probe reads;
`Option` models optional JS fields, with the `??` defaults applied inside
the probe exactly as in the source). -/
structure SMTPConfig where
  tlsRequired : Option Bool := none
  verifyMailbox : Option Bool := none
  sender : Option String := none
deriving DecidableEq, Repr

/-- Successful probe outcome `{valid, mailboxExists, greylisted}`. -/
structure ProbeResult where
  valid : Bool
  mailboxExists : Bool
  greylisted : Bool
deriving DecidableEq, Repr

/-- Probe failure: a classified SMTP-connection failure (thrown
`ValidationError` with code `SMTP_CONNECTION_FAILED`) or a propagated
socket/timeout error. -/
inductive ProbeErr where
  | connFailed (msg : String)
  | netErr (msg : String)
deriving DecidableEq, Repr

/-- Substring test on character lists. -/
def containsSub (needle hay : List Char) : Bool :=
  hay.tails.any (fun t => needle.isPrefixOf t)

/-- `heloResponse.message.toLowerCase().includes('starttls')`. -/
def hasSTARTTLS (message : String) : Bool :=
  containsSub "starttls".data (message.data.map Char.toLower)

/-- The client hostname the probe announces (smtp.ts line 307). -/
def clientHello : String := "mailtester.local"

/-- Message used when the script is exhausted (socket closed). -/
def closedMsg : String := "Connection closed before response received"

/-- Step 3 of the probe: send `EHLO`, falling back to `HELO` when the EHLO
response code is not 250; returns the EHLO response message (used for the
STARTTLS capability test even if EHLO itself failed and HELO succeeded). -/
def ehloPhase (script : List NetEv) :
    Except ProbeErr String × List NetEv × List Action :=
  let ehloAct := Action.send ("EHLO " ++ clientHello)
  let heloAct := Action.send ("HELO " ++ clientHello)
  match script with
  | [] => (Except.error (ProbeErr.netErr closedMsg), [], [ehloAct])
  | NetEv.fail m :: rest => (Except.error (ProbeErr.netErr m), rest, [ehloAct])
  | NetEv.resp c msg :: rest =>
    if c = 250 then (Except.ok msg, rest, [ehloAct])
    else
      match rest with
      | [] => (Except.error (ProbeErr.netErr closedMsg), [], [ehloAct, heloAct])
      | NetEv.fail m :: rest2 => (Except.error (ProbeErr.netErr m), rest2, [ehloAct, heloAct])
      | NetEv.resp c2 _ :: rest2 =>
        if c2 = 250 then (Except.ok msg, rest2, [ehloAct, heloAct])
        else (Except.error (ProbeErr.connFailed "HELO/EHLO failed"), rest2, [ehloAct, heloAct])

/-- Step 4 of the probe (smtp.ts lines 322-358): fail if TLS is required but
not advertised; send `STARTTLS` and upgrade when advertised and
(`tlsRequired` or `config.tlsRequired !== false`), expecting 220 and
re-sending `EHLO` over the encrypted channel. -/
def starttlsPhase (mxHost : String) (cfg : SMTPConfig) (tlsOk : Bool)
    (ehloMsg : String) (script : List NetEv) :
    Except ProbeErr Unit × List NetEv × List Action :=
  let tlsRequired := cfg.tlsRequired.getD false
  let supports := hasSTARTTLS ehloMsg
  if tlsRequired && !supports then
    (Except.error (ProbeErr.connFailed "TLS required but server does not support STARTTLS"),
      script, [])
  else if supports && (tlsRequired || cfg.tlsRequired != some false) then
    match script with
    | [] => (Except.error (ProbeErr.netErr closedMsg), [], [Action.send "STARTTLS"])
    | NetEv.fail m :: rest =>
      (Except.error (ProbeErr.netErr m), rest, [Action.send "STARTTLS"])
    | NetEv.resp c _ :: rest =>
      if c = 220 then
        let acts := [Action.send "STARTTLS", Action.upgradeTLS mxHost true]
        if tlsOk then
          match rest with
          | [] =>
            (Except.error (ProbeErr.netErr closedMsg), [],
              acts ++ [Action.send ("EHLO " ++ clientHello)])
          | NetEv.fail m :: rest2 =>
            (Except.error (ProbeErr.netErr m), rest2,
              acts ++ [Action.send ("EHLO " ++ clientHello)])
          | NetEv.resp c2 _ :: rest2 =>
            if c2 = 250 then
              (Except.ok (), rest2, acts ++ [Action.send ("EHLO " ++ clientHello)])
            else
              (Except.error (ProbeErr.connFailed "EHLO after TLS failed"), rest2,
                acts ++ [Action.send ("EHLO " ++ clientHello)])
        else (Except.error (ProbeErr.netErr "TLS handshake failed"), rest, acts)
      else
        (Except.error (ProbeErr.connFailed "STARTTLS failed"), rest, [Action.send "STARTTLS"])
  else (Except.ok (), script, [])

/-- Step 5: `MAIL FROM:<sender>`, requiring 250. -/
def mailFromPhase (cfg : SMTPConfig) (script : List NetEv) :
    Except ProbeErr Unit × List NetEv × List Action :=
  let sender := cfg.sender.getD "verify@mailtester.local"
  let act := Action.send ("MAIL FROM:<" ++ sender ++ ">")
  match script with
  | [] => (Except.error (ProbeErr.netErr closedMsg), [], [act])
  | NetEv.fail m :: rest => (Except.error (ProbeErr.netErr m), rest, [act])
  | NetEv.resp c _ :: rest =>
    if c = 250 then (Except.ok (), rest, [act])
    else (Except.error (ProbeErr.connFailed "MAIL FROM failed"), rest, [act])

/-- Step 6: `RCPT TO:<email>` response classification (smtp.ts lines
371-429). -/
def rcptPhase (email : String) (script : List NetEv) :
    Except ProbeErr ProbeResult × List NetEv × List Action :=
  let act := Action.send ("RCPT TO:<" ++ email ++ ">")
  match script with
  | [] => (Except.error (ProbeErr.netErr closedMsg), [], [act])
  | NetEv.fail m :: rest => (Except.error (ProbeErr.netErr m), rest, [act])
  | NetEv.resp c _ :: rest =>
    if c = 250 ∨ c = 251 then
      (Except.ok { valid := true, mailboxExists := true, greylisted := false }, rest, [act])
    else if c = 450 ∨ c = 451 then
      (Except.ok { valid := false, mailboxExists := false, greylisted := true }, rest, [act])
    else if c = 550 ∨ c = 551 ∨ c = 553 then
      (Except.ok { valid := false, mailboxExists := false, greylisted := false }, rest, [act])
    else (Except.error (ProbeErr.connFailed "RCPT TO failed"), rest, [act])

/-- The body of `performSMTPVerification`'s `try` block, after a successful
connect: greeting, EHLO/HELO, STARTTLS negotiation, MAIL FROM, then either
RCPT TO classification or - with `verifyMailbox` false - immediate success
with `mailboxExists = false`. -/
def probeCore (email mxHost : String) (cfg : SMTPConfig) (tlsOk : Bool)
    (script : List NetEv) : Except ProbeErr ProbeResult × List Action :=
  match script with
  | [] => (Except.error (ProbeErr.netErr closedMsg), [])
  | NetEv.fail m :: _ => (Except.error (ProbeErr.netErr m), [])
  | NetEv.resp c _ :: rest =>
    if c = 220 then
      match ehloPhase rest with
      | (Except.error e, _, acts1) => (Except.error e, acts1)
      | (Except.ok msg, rest2, acts1) =>
        match starttlsPhase mxHost cfg tlsOk msg rest2 with
        | (Except.error e, _, acts2) => (Except.error e, acts1 ++ acts2)
        | (Except.ok _, rest3, acts2) =>
          match mailFromPhase cfg rest3 with
          | (Except.error e, _, acts3) => (Except.error e, acts1 ++ acts2 ++ acts3)
          | (Except.ok _, rest4, acts3) =>
            if cfg.verifyMailbox.getD true then
              match rcptPhase email rest4 with
              | (outcome, _, acts4) => (outcome, acts1 ++ acts2 ++ acts3 ++ acts4)
            else
              (Except.ok { valid := true, mailboxExists := false, greylisted := false },
                acts1 ++ acts2 ++ acts3)
    else (Except.error (ProbeErr.connFailed "Unexpected greeting code"), [])

/-- `performSMTPVerification` (smtp.ts lines 272-463) with its `catch` and
`finally` blocks: on any thrown error after a successful connect the probe
sends `QUIT` (errors ignored) and destroys the socket; on a returning path
the `finally` block destroys the socket without sending `QUIT`.  A failed
connect leaves no socket to clean up. -/
def probe (email mxHost : String) (cfg : SMTPConfig) (connectOk tlsOk : Bool)
    (script : List NetEv) : Except ProbeErr ProbeResult × List Action :=
  if connectOk then
    match probeCore email mxHost cfg tlsOk script with
    | (Except.ok r, acts) =>
      (Except.ok r, Action.connect :: acts ++ [Action.destroy])
    | (Except.error e, acts) =>
      (Except.error e, Action.connect :: acts ++ [Action.send "QUIT", Action.destroy])
  else (Except.error (ProbeErr.netErr "connect failed"), [Action.connect])

/-! ### Bulk processor (`src/bulk/index.ts`)

Each address's fate is an oracle value: the rate limiter denied it, the
pipeline completed (with the validator outcomes that the formatter then
aggregates), or the pipeline threw.  Results are written into the output
array at the address's original index (`results[globalIndex] = ...`),
regardless of the completion order of the batch. -/

/-- What happens to one address during a bulk run. -/
inductive AddrBehavior where
  | denied
  | completes (outcomes : List (String × ValidatorResult))
  | throws
deriving DecidableEq, Repr

/-- The `ValidationResult` stored for one address: the rate-limit denial
entry (`reason: 'rate-limit'`, bulk/index.ts lines 368-378), the pipeline's
formatted result, or the caught-exception entry (`reason: 'custom'`, lines
418-428). -/
def addrResult (email : String) (b : AddrBehavior) : ValidationResult :=
  match b with
  | AddrBehavior.denied =>
    { valid := false, email := email, score := 0, reason := some "rate-limit" }
  | AddrBehavior.completes outcomes => format email outcomes
  | AddrBehavior.throws =>
    { valid := false, email := email, score := 0, reason := some "custom" }

/-- Tallies of a bulk run. -/
structure BulkTally where
  total : Nat
  valid : Nat
  invalid : Nat
  errors : Nat
deriving DecidableEq, Repr

/-- Per-address tally increments (bulk/index.ts lines 358-443): a rate-limit
denial increments `invalid`; a completed validation increments `valid` or
`invalid` by `result.valid`; a caught exception increments `errors` only. -/
def tallyOne (t : BulkTally) (email : String) (b : AddrBehavior) : BulkTally :=
  match b with
  | AddrBehavior.denied => { t with invalid := t.invalid + 1 }
  | AddrBehavior.completes outcomes =>
    if (format email outcomes).valid then { t with valid := t.valid + 1 }
    else { t with invalid := t.invalid + 1 }
  | AddrBehavior.throws => { t with errors := t.errors + 1 }

/-- Fold the tallies over the whole input (completion order does not matter:
each address bumps exactly one counter). -/
def tallyAll (emails : List String) (bs : List AddrBehavior) : BulkTally :=
  (List.zip emails bs).foldl (fun t p => tallyOne t p.1 p.2)
    { total := emails.length, valid := 0, invalid := 0, errors := 0 }

/-- `BulkProcessor.process`, restricted to calls that return: with
`continueOnError` false, any denial or exception makes `process` throw
instead of returning (`Promise.all` rejection propagates), modelled as
`none`.  An empty input returns the all-zero tally without running the
pipeline. -/
def processTally (emails : List String) (bs : List AddrBehavior)
    (continueOnError : Bool) : Option BulkTally :=
  if emails.isEmpty then
    some { total := 0, valid := 0, invalid := 0, errors := 0 }
  else if !continueOnError &&
      (List.zip emails bs).any (fun p =>
        match p.2 with
        | AddrBehavior.completes _ => false
        | _ => true) then
    none
  else some (tallyAll emails bs)

/-- The results array entries of a returning bulk call, in input order
(index-addressed writes). -/
def processResults (emails : List String) (bs : List AddrBehavior) :
    List ValidationResult :=
  (List.zip emails bs).map (fun p => addrResult p.1 p.2)

/-- The index-addressed writes starting at index `k`:
`results[globalIndex] = ...` for each address. -/
def writesFrom (k : Nat) : List (String × AddrBehavior) → List (Nat × ValidationResult)
  | [] => []
  | p :: rest => (k, addrResult p.1 p.2) :: writesFrom (k + 1) rest

/-- The index-addressed writes a bulk run performs:
`results[globalIndex] = ...` for each address. -/
def bulkWrites (emails : List String) (bs : List AddrBehavior) :
    List (Nat × ValidationResult) :=
  writesFrom 0 (List.zip emails bs)

/-- Apply index-addressed writes to an array (modelled as a list of optional
cells) in the order given. -/
def applyWrites (ws : List (Nat × ValidationResult)) (arr : List (Option ValidationResult)) :
    List (Option ValidationResult) :=
  ws.foldl (fun a w => a.set w.1 (some w.2)) arr

/-! ### Spec-side predicates and concrete demonstration inputs -/

/-- The spec's failure predicate for the overall-validity invariant: a
results-map entry whose outcome failed with severity other than warning. -/
def failsNonWarning (p : String × ValidatorResult) : Bool :=
  !p.2.valid && !(errSeverity p.2 == some Severity.warning)

/-- Number of results with `valid = true`. -/
def countValid (rs : List ValidationResult) : Nat :=
  (rs.filter (fun r => r.valid)).length

/-- Number of results with `valid = false`. -/
def countInvalid (rs : List ValidationResult) : Nat :=
  (rs.filter (fun r => !r.valid)).length

/-- Number of addresses whose pipeline threw (caught exceptions). -/
def countThrows (bs : List AddrBehavior) : Nat :=
  (bs.filter (fun b =>
    match b with
    | AddrBehavior.throws => true
    | _ => false)).length

/-- Number of addresses denied by the rate limiter. -/
def countDenied (bs : List AddrBehavior) : Nat :=
  (bs.filter (fun b =>
    match b with
    | AddrBehavior.denied => true
    | _ => false)).length

/-- A passing outcome for a named validator. -/
def passOutcome (name : String) : ValidatorResult :=
  { valid := true, validator := name }

/-- The failing outcome the typo validator returns for a detected typo
(typo.ts lines 137-158): `valid: false` with severity `warning`. -/
def typoWarnOutcome : ValidatorResult :=
  { valid := false, validator := "typo",
    error := some { code := "TYPO_DETECTED", message := "Possible typo in domain",
                    severity := Severity.warning } }

/-- Demonstration results map: passing regex, failing typo warning. -/
def demoResults : List (String × ValidatorResult) :=
  [("regex", passOutcome "regex"), ("typo", typoWarnOutcome)]

/-- Five enabled stages where typo fails with a warning and everything else
passes. -/
def typoFailStages : List StageSpec :=
  [ { name := "regex", enabled := true, behavior := StageBehavior.outcome (passOutcome "regex") },
    { name := "typo", enabled := true, behavior := StageBehavior.outcome typoWarnOutcome },
    { name := "disposable", enabled := true,
      behavior := StageBehavior.outcome (passOutcome "disposable") },
    { name := "mx", enabled := true, behavior := StageBehavior.outcome (passOutcome "mx") },
    { name := "smtp", enabled := true, behavior := StageBehavior.outcome (passOutcome "smtp") } ]

/-- A server script for a fully successful handshake without STARTTLS:
greeting 220, EHLO 250, MAIL FROM 250. -/
def smtpOkScript : List NetEv :=
  [NetEv.resp 220 "mx ready", NetEv.resp 250 "ok", NetEv.resp 250 "ok"]

/-- Probe configuration as `SMTPValidator.validate` passes it with all
defaults (smtp.ts lines 594-600): explicit `tlsRequired: false`,
`verifyMailbox` disabled here to reach the no-RCPT success path. -/
def smtpNoVerifyCfg : SMTPConfig :=
  { tlsRequired := some false, verifyMailbox := some false }

/-- A server script whose EHLO response advertises STARTTLS, followed by
successful MAIL FROM and RCPT responses. -/
def starttlsAdvScript : List NetEv :=
  [NetEv.resp 220 "mx ready", NetEv.resp 250 "250-STARTTLS",
   NetEv.resp 250 "ok", NetEv.resp 250 "ok"]

/-! ## Helper lemmas -/

lemma dedup_length_one {l : List Nat} {a : Nat} (hne : l ≠ []) (h : ∀ x ∈ l, x = a) :
    l.dedup.length = 1 := by
  have ha : a ∈ l.dedup := by
    rw [List.mem_dedup]
    cases l with
    | nil => exact absurd rfl hne
    | cons b t => have hb := h b (by simp); simp [← hb]
  have hall : ∀ x ∈ l.dedup, x = a := fun x hx => h x (List.mem_dedup.1 hx)
  have hnd : l.dedup.Nodup := l.nodup_dedup
  match hd : l.dedup with
  | [] => rw [hd] at ha; simp at ha
  | [x] => rfl
  | x :: y :: t =>
    exfalso
    rw [hd] at hall hnd
    have hx := hall x (by simp)
    have hy := hall y (by simp)
    rw [List.nodup_cons] at hnd
    exact hnd.1 (by simp [hx, hy])

lemma dedup_length_two {l : List Nat} {a b : Nat} (ha : a ∈ l) (hb : b ∈ l)
    (hab : a ≠ b) : 2 ≤ l.dedup.length := by
  have ha2 : a ∈ l.dedup := List.mem_dedup.2 ha
  have hb2 : b ∈ l.dedup := List.mem_dedup.2 hb
  match hd : l.dedup with
  | [] => rw [hd] at ha2; simp at ha2
  | [x] =>
    rw [hd] at ha2 hb2
    simp at ha2 hb2
    exact absurd (ha2.trans hb2.symm) hab
  | x :: y :: t => simp

/-! ## C7: MX quality scoring -/

/-- C7: the MX quality score is 0 with neither MX nor A records, 10 with
only A records, 15 for exactly one MX record, 18 for two or more MX records
all sharing one priority, 20 for two or more MX records with at least two
distinct priorities; these values are monotone over the shapes. -/
theorem mx_quality_spec :
    (calculateMXQuality [] false = 0) ∧
    (calculateMXQuality [] true = 10) ∧
    (∀ (r : MXRecord) (hasA : Bool), calculateMXQuality [r] hasA = 15) ∧
    (∀ (l : List MXRecord) (hasA : Bool) (p : Nat), 2 ≤ l.length →
      (∀ r ∈ l, r.priority = p) → calculateMXQuality l hasA = 18) ∧
    (∀ (l : List MXRecord) (hasA : Bool), 2 ≤ l.length →
      (∃ r1 ∈ l, ∃ r2 ∈ l, r1.priority ≠ r2.priority) →
      calculateMXQuality l hasA = 20) ∧
    (calculateMXQuality [] false ≤ calculateMXQuality [] true ∧
      calculateMXQuality [] true <
        calculateMXQuality [{ priority := 10, exchange := "mx1" }] false ∧
      calculateMXQuality [{ priority := 10, exchange := "mx1" }] false <
        calculateMXQuality
          [{ priority := 10, exchange := "mx1" }, { priority := 10, exchange := "mx2" }] false ∧
      calculateMXQuality
          [{ priority := 10, exchange := "mx1" }, { priority := 10, exchange := "mx2" }] false <
        calculateMXQuality
          [{ priority := 10, exchange := "mx1" }, { priority := 20, exchange := "mx2" }] false) := by
  refine ⟨by decide, by decide, ?_, ?_, ?_, by decide⟩
  · intro r hasA
    simp [calculateMXQuality]
  · intro l hasA p hlen hall
    have h0 : ¬(l.length = 0) := by omega
    have h1 : ¬(l.length = 1) := by omega
    have hne : l.map (fun r => r.priority) ≠ [] := by
      cases l with
      | nil => simp at hlen
      | cons b t => simp
    have hone : (l.map (fun r => r.priority)).dedup.length = 1 := by
      refine dedup_length_one (a := p) hne ?_
      intro x hx
      rcases List.mem_map.1 hx with ⟨r, hr, rfl⟩
      exact hall r hr
    simp only [calculateMXQuality, if_neg h0, if_neg h1, hone]
    norm_num
  · intro l hasA hlen hex
    have h0 : ¬(l.length = 0) := by omega
    have h1 : ¬(l.length = 1) := by omega
    rcases hex with ⟨r1, hr1, r2, hr2, hne⟩
    have htwo : 2 ≤ (l.map (fun r => r.priority)).dedup.length :=
      dedup_length_two (List.mem_map_of_mem _ hr1) (List.mem_map_of_mem _ hr2) hne
    simp only [calculateMXQuality, if_neg h0, if_neg h1]
    rw [if_pos (by omega)]

/-- C7 witness: concrete record lists hitting the 18 and 20 cases. -/
theorem mx_quality_spec_witness :
    calculateMXQuality
        [{ priority := 5, exchange := "a" }, { priority := 5, exchange := "b" }] false = 18 ∧
    calculateMXQuality
        [{ priority := 5, exchange := "a" }, { priority := 7, exchange := "b" }] true = 20 :=
  ⟨mx_quality_spec.2.2.2.1 _ false 5 (by decide) (by decide),
   mx_quality_spec.2.2.2.2.1 _ true (by decide)
     ⟨{ priority := 5, exchange := "a" }, by decide,
      { priority := 7, exchange := "b" }, by decide, by decide⟩⟩

/-! ## C1: formatter aggregation -/

lemma computeValidReason_fst (rs : List (String × ValidatorResult)) (v : Bool)
    (reason : Option String) :
    (computeValidReason rs v reason).1 = (v && !(rs.any failsCounted)) := by
  induction rs generalizing v reason with
  | nil => simp [computeValidReason]
  | cons p rest ih =>
    obtain ⟨name, r⟩ := p
    by_cases hv : r.valid = true
    · simp [computeValidReason, hv, ih, failsCounted]
    · by_cases hw : isTypoWarning name r = true
      · simp [computeValidReason, hv, hw, ih, failsCounted]
      · simp [computeValidReason, hv, hw, ih, failsCounted]

lemma orElse_some_orElse (x : Option String) (v : String) (c : Unit → Option String) :
    ((x.orElse fun _ => some v).orElse c) = x.orElse fun _ => some v := by
  cases x <;> rfl

lemma computeValidReason_snd (rs : List (String × ValidatorResult)) (v : Bool)
    (reason : Option String) :
    (computeValidReason rs v reason).2 =
      reason.orElse fun _ => (rs.find? failsCounted).map (·.1) := by
  induction rs generalizing v reason with
  | nil => cases reason <;> simp [computeValidReason]
  | cons p rest ih =>
    obtain ⟨name, r⟩ := p
    by_cases hv : r.valid = true
    · have hf : failsCounted (name, r) = false := by simp [failsCounted, hv]
      simp [computeValidReason, hv, ih, List.find?, hf]
    · by_cases hw : isTypoWarning name r = true
      · have hf : failsCounted (name, r) = false := by simp [failsCounted, hv, hw]
        simp [computeValidReason, hv, hw, ih, List.find?, hf]
      · have hf : failsCounted (name, r) = true := by simp [failsCounted, hv, hw]
        have hfind : List.find? failsCounted ((name, r) :: rest) = some (name, r) :=
          List.find?_cons_of_pos _ hf
        have hstep : (computeValidReason ((name, r) :: rest) v reason).2 =
            (computeValidReason rest false (reason.orElse fun _ => some name)).2 := by
          simp only [computeValidReason, if_neg hv, if_neg hw]
        rw [hstep, ih, orElse_some_orElse, hfind]
        cases reason <;> rfl

lemma any_congr_of_mem {α : Type} {l : List α} {f g : α → Bool}
    (h : ∀ x ∈ l, f x = g x) : l.any f = l.any g := by
  induction l with
  | nil => rfl
  | cons x rest ih =>
    simp only [List.any_cons, h x (by simp), ih (fun y hy => h y (by simp [hy]))]

lemma find?_congr_of_mem {α : Type} {l : List α} {f g : α → Bool}
    (h : ∀ x ∈ l, f x = g x) : l.find? f = l.find? g := by
  induction l with
  | nil => rfl
  | cons x rest ih =>
    have hx := h x (by simp)
    by_cases hfx : f x = true
    · rw [List.find?_cons_of_pos _ hfx, List.find?_cons_of_pos _ (hx ▸ hfx)]
    · rw [List.find?_cons_of_neg _ hfx,
        List.find?_cons_of_neg _ (by rw [← hx]; exact hfx),
        ih (fun y hy => h y (by simp [hy]))]

lemma failsCounted_eq_failsNonWarning {p : String × ValidatorResult}
    (h : p.2.valid = false → errSeverity p.2 = some Severity.warning → p.1 = "typo") :
    failsCounted p = failsNonWarning p := by
  obtain ⟨name, r⟩ := p
  by_cases hv : r.valid = true
  · simp [failsCounted, failsNonWarning, hv]
  · have hv2 : r.valid = false := by simpa using hv
    by_cases hs : errSeverity r = some Severity.warning
    · have hn : name = "typo" := h hv2 hs
      simp [failsCounted, failsNonWarning, hv, hs, hn, isTypoWarning]
    · simp [failsCounted, failsNonWarning, hv, hs, isTypoWarning]

/-- C1: for results maps a completed pipeline run can produce (every failing
outcome of warning severity comes from the typo validator), the formatter's
`overallValid` is false iff some recorded outcome failed with non-warning
severity; `failureReason` is the first such validator's name in execution
order, absent if there is none; and when every failing outcome is a typo
warning the result is valid. -/
theorem formatter_overallValid_spec (email : String)
    (results : List (String × ValidatorResult))
    (h : ∀ p ∈ results, p.2.valid = false →
      errSeverity p.2 = some Severity.warning → p.1 = "typo") :
    ((format email results).valid = false ↔
      ∃ p ∈ results, failsNonWarning p = true) ∧
    (format email results).reason = (results.find? failsNonWarning).map (·.1) ∧
    ((∀ p ∈ results, p.2.valid = false →
        p.1 = "typo" ∧ errSeverity p.2 = some Severity.warning) →
      (format email results).valid = true) := by
  have hpt : ∀ p ∈ results, failsCounted p = failsNonWarning p :=
    fun p hp => failsCounted_eq_failsNonWarning (h p hp)
  have hany : results.any failsCounted = results.any failsNonWarning :=
    any_congr_of_mem hpt
  have hfind : results.find? failsCounted = results.find? failsNonWarning :=
    find?_congr_of_mem hpt
  have hv : (format email results).valid = !(results.any failsNonWarning) := by
    simp [format, computeValidReason_fst, hany]
  have hr : (format email results).reason =
      (results.find? failsNonWarning).map (·.1) := by
    simp [format, computeValidReason_snd, hfind, Option.orElse]
  refine ⟨?_, hr, ?_⟩
  · rw [hv]
    cases hcase : results.any failsNonWarning with
    | true =>
      simp only [Bool.not_true]
      exact ⟨fun _ => by simpa using List.any_eq_true.1 hcase, fun _ => by simp⟩
    | false =>
      simp only [Bool.not_false]
      constructor
      · intro hfalse; exact absurd hfalse (by decide)
      · rintro ⟨p, hp, hfp⟩
        have hcontra := List.any_eq_true.2 ⟨p, hp, hfp⟩
        rw [hcase] at hcontra
        exact absurd hcontra (by decide)
  · intro hall
    rw [hv]
    have : results.any failsNonWarning = false := by
      rw [List.any_eq_false]
      intro p hp
      by_cases hpv : p.2.valid = true
      · simp [failsNonWarning, hpv]
      · have hpv2 : p.2.valid = false := by simpa using hpv
        have := (hall p hp hpv2).2
        simp [failsNonWarning, hpv2, this]
    simp [this]

/-- C1 witness: a pipeline result with a passing regex outcome and a failing
typo warning is overall valid with no failure reason. -/
theorem formatter_overallValid_spec_witness :
    ((format "user@gmaill.com" demoResults).valid = false ↔
      ∃ p ∈ demoResults, failsNonWarning p = true) ∧
    (format "user@gmaill.com" demoResults).reason =
      (demoResults.find? failsNonWarning).map (·.1) ∧
    ((∀ p ∈ demoResults, p.2.valid = false →
        p.1 = "typo" ∧ errSeverity p.2 = some Severity.warning) →
      (format "user@gmaill.com" demoResults).valid = true) :=
  formatter_overallValid_spec "user@gmaill.com" demoResults (by decide)

/-! ## C2: orchestrator early exit -/

/-- C2 counterexample: with `earlyExit` on, a failing typo outcome of
severity `warning` stops the stage loop (orchestrator.ts line 91 checks only
`!result.valid`): the enabled disposable/mx/smtp stages are absent from the
results map, though the claim says a failing warning-severity outcome does
not stop the loop. -/
theorem early_exit_warning_counterexample :
    typoWarnOutcome.valid = false ∧
    errSeverity typoWarnOutcome = some Severity.warning ∧
    (typoFailStages.map (fun s => s.enabled)) = [true, true, true, true, true] ∧
    runStages true typoFailStages =
      [("regex", passOutcome "regex"), ("typo", typoWarnOutcome)] ∧
    lookupResult (runStages true typoFailStages) "disposable" = none ∧
    lookupResult (runStages true typoFailStages) "mx" = none ∧
    lookupResult (runStages true typoFailStages) "smtp" = none := by
  decide

/-- C2 amended: with `earlyExit` enabled the orchestrator stops the stage
loop exactly when the just-completed stage's outcome has `passed = false`,
regardless of severity (a thrown stage records a failing outcome and also
stops); once some enabled stage fails, no outcome for any later stage is
recorded, and while every enabled stage passes the loop records each enabled
stage's outcome and continues. -/
theorem early_exit_truncation (pre post : List StageSpec) :
    ((∃ s ∈ pre, s.enabled = true ∧ stageFails s = true) →
      runStages true (pre ++ post) = runStages true pre) ∧
    ((∀ s ∈ pre, s.enabled = true → stageFails s = false) →
      runStages true (pre ++ post) =
        ((pre.filter (fun s => s.enabled)).map (fun s => (s.name, stageOutcome s))) ++
          runStages true post) := by
  induction pre with
  | nil =>
    refine ⟨fun h => ?_, fun _ => by simp⟩
    rcases h with ⟨s, hs, _⟩
    simp at hs
  | cons s rest ih =>
    constructor
    · rintro ⟨t, ht, hten, htf⟩
      by_cases hen : s.enabled = true
      · cases hb : s.behavior with
        | outcome r =>
          by_cases hvr : r.valid = true
          · have htrest : t ∈ rest := by
              rcases List.mem_cons.1 ht with h1 | h1
              · exfalso
                rw [h1] at htf
                simp [stageFails, stageOutcome, hb, hvr] at htf
              · exact h1
            have h1 : runStages true ((s :: rest) ++ post) =
                (s.name, r) :: runStages true (rest ++ post) := by
              simp [runStages, hen, hb, hvr]
            have h2 : runStages true (s :: rest) =
                (s.name, r) :: runStages true rest := by
              simp [runStages, hen, hb, hvr]
            rw [h1, h2, ih.1 ⟨t, htrest, hten, htf⟩]
          · have hvr2 : r.valid = false := by simpa using hvr
            have h1 : runStages true ((s :: rest) ++ post) = [(s.name, r)] := by
              simp [runStages, hen, hb, hvr2]
            have h2 : runStages true (s :: rest) = [(s.name, r)] := by
              simp [runStages, hen, hb, hvr2]
            rw [h1, h2]
        | thrown msg =>
          have h1 : runStages true ((s :: rest) ++ post) =
              [(s.name, thrownOutcome s.name msg)] := by
            simp [runStages, hen, hb]
          have h2 : runStages true (s :: rest) =
              [(s.name, thrownOutcome s.name msg)] := by
            simp [runStages, hen, hb]
          rw [h1, h2]
      · have htrest : t ∈ rest := by
          rcases List.mem_cons.1 ht with h1 | h1
          · exact absurd (h1 ▸ hten) hen
          · exact h1
        have h1 : runStages true ((s :: rest) ++ post) =
            runStages true (rest ++ post) := by
          simp [runStages, hen]
        have h2 : runStages true (s :: rest) = runStages true rest := by
          simp [runStages, hen]
        rw [h1, h2, ih.1 ⟨t, htrest, hten, htf⟩]
    · intro hall
      by_cases hen : s.enabled = true
      · have hsf : stageFails s = false := hall s (by simp) hen
        cases hb : s.behavior with
        | outcome r =>
          have hvr : r.valid = true := by
            by_contra hc
            simp [stageFails, stageOutcome, hb] at hsf
            exact hc hsf
          have h1 : runStages true ((s :: rest) ++ post) =
              (s.name, r) :: runStages true (rest ++ post) := by
            simp [runStages, hen, hb, hvr]
          rw [h1, ih.2 (fun t htr hte => hall t (by simp [htr]) hte)]
          simp [List.filter_cons, hen, stageOutcome, hb]
        | thrown msg =>
          exfalso
          simp [stageFails, hb] at hsf
      · have h1 : runStages true ((s :: rest) ++ post) =
            runStages true (rest ++ post) := by
          simp [runStages, hen]
        rw [h1, ih.2 (fun t htr hte => hall t (by simp [htr]) hte)]
        simp [List.filter_cons, hen]

/-- C2 amended witness: a failing (warning) typo stage truncates a concrete
pipeline. -/
theorem early_exit_truncation_witness :
    runStages true
        ([{ name := "regex", enabled := true,
            behavior := StageBehavior.outcome (passOutcome "regex") },
          { name := "typo", enabled := true,
            behavior := StageBehavior.outcome typoWarnOutcome }] ++
          [{ name := "disposable", enabled := true,
             behavior := StageBehavior.outcome (passOutcome "disposable") }]) =
      runStages true
        [{ name := "regex", enabled := true,
           behavior := StageBehavior.outcome (passOutcome "regex") },
         { name := "typo", enabled := true,
           behavior := StageBehavior.outcome typoWarnOutcome }] :=
  (early_exit_truncation _ _).1
    ⟨{ name := "typo", enabled := true, behavior := StageBehavior.outcome typoWarnOutcome },
      by decide, by decide, by decide⟩

/-! ## C8: token bucket conservation and refill -/

lemma refillBucket_now_eq (b : TokenBucket) (now : ℤ) (h : b.lastRefill = now) :
    refillBucket b now = b := by
  subst h
  simp [refillBucket]

lemma admitN_fixed (N : Nat) (b : TokenBucket) (now : ℤ)
    (hl : b.lastRefill = now) (h0 : 0 ≤ b.tokens) :
    (admitN N b now).1 = min N (Int.toNat ⌊b.tokens⌋) := by
  induction N generalizing b with
  | zero => simp [admitN]
  | succ n ih =>
    have hrefill : refillBucket b now = b := refillBucket_now_eq b now hl
    by_cases hlt : b.tokens < 1
    · have hfloor : ⌊b.tokens⌋ = 0 := by
        rw [Int.floor_eq_zero_iff]
        exact ⟨h0, hlt⟩
      have hstep : bucketAdmit b now = (false, b) := by
        simp [bucketAdmit, hrefill, hlt]
      simp [admitN, hstep, ih b hl h0, hfloor]
    · push_neg at hlt
      have hstep : bucketAdmit b now = (true, { b with tokens := b.tokens - 1 }) := by
        simp [bucketAdmit, hrefill, not_lt.2 hlt]
      have hfloor1 : (1 : ℤ) ≤ ⌊b.tokens⌋ := Int.le_floor.2 (by exact_mod_cast hlt)
      have hfs : ⌊b.tokens - 1⌋ = ⌊b.tokens⌋ - 1 := by simp
      have ihr := ih ⟨b.tokens - 1, b.capacity, b.lastRefill, b.refillRate⟩ hl
        (by simp only; linarith)
      have hgoal : (admitN (n + 1) b now).1 =
          1 + (admitN n ⟨b.tokens - 1, b.capacity, b.lastRefill, b.refillRate⟩ now).1 := by
        simp [admitN, hstep]
      have hproj : (⟨b.tokens - 1, b.capacity, b.lastRefill, b.refillRate⟩ :
          TokenBucket).tokens = b.tokens - 1 := rfl
      rw [hgoal, ihr, hproj, hfs]
      omega

/-- C8: refill uses `tokens = min(capacity, tokens + elapsedSeconds *
refillRatePerSec)` with `refillRatePerSec = capacity / windowSeconds`; `N`
back-to-back admission checks with zero elapsed time allow exactly
`min(N, floor(capacity))` and deny the rest; and after `windowSeconds` a
drained bucket is refilled exactly to capacity (idealized real arithmetic
stands in for floating point). -/
theorem rate_limiter_conservation :
    (∀ (b : TokenBucket) (now : ℤ), b.lastRefill ≤ now → b.tokens ≤ b.capacity →
      (refillBucket b now).tokens =
        min b.capacity
          (b.tokens + (((now : ℚ) - (b.lastRefill : ℚ)) / 1000) * b.refillRate)) ∧
    (∀ (capacity window : ℚ) (now : ℤ),
      (createBucket capacity window now).refillRate = capacity / window) ∧
    (∀ (capacity window : ℚ) (now : ℤ) (N : Nat), 0 ≤ capacity →
      (admitN N (createBucket capacity window now) now).1 =
        min N (Int.toNat ⌊capacity⌋)) ∧
    (∀ (b : TokenBucket) (w : Nat), 0 < w → 0 ≤ b.tokens →
      b.refillRate = b.capacity / (w : ℚ) →
      (refillBucket b (b.lastRefill + 1000 * (w : ℤ))).tokens = b.capacity) := by
  refine ⟨?_, fun _ _ _ => rfl, ?_, ?_⟩
  · intro b now hle htc
    unfold refillBucket
    by_cases h0 : ((now : ℚ) - (b.lastRefill : ℚ)) / 1000 ≤ 0
    · rw [if_pos h0]
      have hge : (0 : ℚ) ≤ ((now : ℚ) - (b.lastRefill : ℚ)) / 1000 := by
        apply div_nonneg _ (by norm_num)
        have : (b.lastRefill : ℚ) ≤ (now : ℚ) := by exact_mod_cast hle
        linarith
      have he0 : ((now : ℚ) - (b.lastRefill : ℚ)) / 1000 = 0 := le_antisymm h0 hge
      rw [he0, zero_mul, add_zero, min_eq_right htc]
    · rw [if_neg h0]
  · intro capacity window now N hcap
    exact admitN_fixed N (createBucket capacity window now) now rfl hcap
  · intro b w hw h0 hrate
    unfold refillBucket
    have hwq : (0 : ℚ) < (w : ℚ) := by exact_mod_cast hw
    have he : (((b.lastRefill + 1000 * (w : ℤ) : ℤ) : ℚ) - (b.lastRefill : ℚ)) / 1000 =
        (w : ℚ) := by
      push_cast
      field_simp
    rw [he, if_neg (by linarith)]
    have hmul : (w : ℚ) * b.refillRate = b.capacity := by
      rw [hrate]
      field_simp
    simp only [hmul]
    exact min_eq_left (le_add_of_nonneg_left h0)

/-- C8 witness: a bucket of capacity 5/2 over a 60-second window allows
exactly 2 of 4 zero-elapsed checks, and refills to capacity after the
window. -/
theorem rate_limiter_conservation_witness :
    (admitN 4 (createBucket (5 / 2) 60 0) 0).1 = min 4 (Int.toNat ⌊(5 / 2 : ℚ)⌋) ∧
    (refillBucket
        { tokens := 0, capacity := 5 / 2, lastRefill := 0,
          refillRate := (5 / 2) / (60 : ℚ) }
        (0 + 1000 * (60 : ℤ))).tokens = 5 / 2 :=
  ⟨rate_limiter_conservation.2.2.1 (5 / 2) 60 0 4 (by norm_num),
   rate_limiter_conservation.2.2.2
     { tokens := 0, capacity := 5 / 2, lastRefill := 0, refillRate := (5 / 2) / (60 : ℚ) }
     60 (by norm_num) (by norm_num) rfl⟩

/-! ## C10: per-domain denial after consuming a global token -/

lemma setDomainBucket_of_find? {dbs : List (String × TokenBucket)} {d : String}
    {db : TokenBucket} (h : dbs.find? (fun p => p.1 = d) = some (d, db)) :
    setDomainBucket dbs d db = dbs := by
  induction dbs with
  | nil => simp [List.find?] at h
  | cons p rest ih =>
    obtain ⟨d0, b0⟩ := p
    by_cases hd : d0 = d
    · rw [List.find?_cons_of_pos _ (by simp [hd])] at h
      have hb : b0 = db := by
        have := Option.some.inj h
        exact congrArg Prod.snd this
      simp [setDomainBucket, hd, hb]
    · rw [List.find?_cons_of_neg _ (by simp [hd])] at h
      simp [setDomainBucket, hd, ih h]

lemma check_denial_step (email d : String) (now : ℤ) (g db : TokenBucket)
    (dcfg : ℚ × ℚ) (dbs : List (String × TokenBucket))
    (hdom : extractDomain email = some d)
    (hg : g.lastRefill = now) (hdb : db.lastRefill = now)
    (hfound : dbs.find? (fun p => p.1 = d) = some (d, db))
    (hdblow : db.tokens < 1) (hg1 : 1 ≤ g.tokens) :
    check
        { globalBucket := some g, domainBuckets := dbs,
          perDomainConfig := some dcfg, enabled := true } email now =
      (CheckOutcome.deniedDomain d,
        { globalBucket := some ⟨g.tokens - 1, g.capacity, g.lastRefill, g.refillRate⟩,
          domainBuckets := dbs, perDomainConfig := some dcfg, enabled := true }) := by
  have hga : bucketAdmit g now =
      (true, ⟨g.tokens - 1, g.capacity, g.lastRefill, g.refillRate⟩) := by
    simp [bucketAdmit, refillBucket_now_eq g now hg, not_lt.2 hg1]
  have hda : bucketAdmit db now = (false, db) := by
    simp [bucketAdmit, refillBucket_now_eq db now hdb, hdblow]
  simp [check, hdom, hga, hda, getDomainBucket, hfound, setDomainBucket_of_find? hfound]

/-- C10: with both a global and a per-domain limit configured, an admission
check that passes the global bucket but is denied by the per-domain bucket
has already consumed one global token and never restores it; `N` such
denials in a row drain the global bucket by `N` tokens while every check
comes back denied-per-domain. -/
theorem per_domain_denial_consumes_global (email d : String) (now : ℤ)
    (g db : TokenBucket) (dcfg : ℚ × ℚ) (dbs : List (String × TokenBucket)) (N : Nat)
    (hdom : extractDomain email = some d)
    (hg : g.lastRefill = now) (hdb : db.lastRefill = now)
    (hfound : dbs.find? (fun p => p.1 = d) = some (d, db))
    (hdblow : db.tokens < 1)
    (hgN : (N : ℚ) ≤ g.tokens) :
    (checkN N
        { globalBucket := some g, domainBuckets := dbs,
          perDomainConfig := some dcfg, enabled := true } email now).1 =
      List.replicate N (CheckOutcome.deniedDomain d) ∧
    ∃ g2, (checkN N
        { globalBucket := some g, domainBuckets := dbs,
          perDomainConfig := some dcfg, enabled := true } email now).2.globalBucket =
          some g2 ∧
      g2.tokens = g.tokens - N := by
  induction N generalizing g with
  | zero =>
    refine ⟨by simp [checkN], g, by simp [checkN], by simp⟩
  | succ n ih =>
    have hg1 : 1 ≤ g.tokens := by
      have : (1 : ℚ) ≤ ((n + 1 : Nat) : ℚ) := by exact_mod_cast Nat.one_le_iff_ne_zero.2 (by omega)
      linarith
    have hstep := check_denial_step email d now g db dcfg dbs hdom hg hdb hfound hdblow hg1
    have ihr := ih ⟨g.tokens - 1, g.capacity, g.lastRefill, g.refillRate⟩ hg
      (by push_cast at hgN; show (n : ℚ) ≤ g.tokens - 1; linarith)
    have hunfold : checkN (n + 1)
        { globalBucket := some g, domainBuckets := dbs,
          perDomainConfig := some dcfg, enabled := true } email now =
        ((CheckOutcome.deniedDomain d) ::
          (checkN n
            { globalBucket := some ⟨g.tokens - 1, g.capacity, g.lastRefill, g.refillRate⟩,
              domainBuckets := dbs, perDomainConfig := some dcfg,
              enabled := true } email now).1,
         (checkN n
            { globalBucket := some ⟨g.tokens - 1, g.capacity, g.lastRefill, g.refillRate⟩,
              domainBuckets := dbs, perDomainConfig := some dcfg,
              enabled := true } email now).2) := by
      simp [checkN, hstep]
    constructor
    · rw [hunfold]
      simp only [List.replicate]
      rw [ihr.1]
    · rcases ihr.2 with ⟨g2, hg2, ht⟩
      refine ⟨g2, ?_, ?_⟩
      · rw [hunfold]
        exact hg2
      · rw [ht]
        show g.tokens - 1 - (n : ℚ) = g.tokens - ((n + 1 : Nat) : ℚ)
        push_cast
        ring

/-- C10 witness: two successive checks against a global bucket holding 5
tokens and an exhausted per-domain bucket are both denied per-domain and
leave the global bucket with 3 tokens. -/
theorem per_domain_denial_consumes_global_witness :
    (checkN 2
        { globalBucket := some { tokens := 5, capacity := 10, lastRefill := 0, refillRate := 1 },
          domainBuckets :=
            [("ex.com", { tokens := 0, capacity := 1, lastRefill := 0, refillRate := 1 / 60 })],
          perDomainConfig := some (1, 60), enabled := true } "u@ex.com" 0).1 =
      List.replicate 2 (CheckOutcome.deniedDomain "ex.com") ∧
    ∃ g2, (checkN 2
        { globalBucket := some { tokens := 5, capacity := 10, lastRefill := 0, refillRate := 1 },
          domainBuckets :=
            [("ex.com", { tokens := 0, capacity := 1, lastRefill := 0, refillRate := 1 / 60 })],
          perDomainConfig := some (1, 60), enabled := true } "u@ex.com" 0).2.globalBucket =
          some g2 ∧
      g2.tokens = (5 : ℚ) - (2 : Nat) :=
  per_domain_denial_consumes_global "u@ex.com" "ex.com" 0
    { tokens := 5, capacity := 10, lastRefill := 0, refillRate := 1 }
    { tokens := 0, capacity := 1, lastRefill := 0, refillRate := 1 / 60 }
    (1, 60)
    [("ex.com", { tokens := 0, capacity := 1, lastRefill := 0, refillRate := 1 / 60 })]
    2 (by decide) rfl rfl (by simp [List.find?]) (by norm_num) (by norm_num)

/-! ## SMTP probe lemmas -/

lemma ehloPhase_acts (script : List NetEv) :
    ∀ a ∈ (ehloPhase script).2.2,
      a = Action.send ("EHLO " ++ clientHello) ∨
        a = Action.send ("HELO " ++ clientHello) := by
  intro a ha
  cases script with
  | nil => simp [ehloPhase] at ha; tauto
  | cons ev rest =>
    cases ev with
    | fail m => simp [ehloPhase] at ha; tauto
    | resp c msg =>
      by_cases hc : c = 250
      · simp [ehloPhase, hc] at ha; tauto
      · cases rest with
        | nil => simp [ehloPhase, hc] at ha; tauto
        | cons ev2 rest2 =>
          cases ev2 with
          | fail m => simp [ehloPhase, hc] at ha; tauto
          | resp c2 m2 =>
            by_cases hc2 : c2 = 250 <;> simp [ehloPhase, hc, hc2] at ha <;> tauto

lemma starttlsPhase_acts (mxHost : String) (cfg : SMTPConfig) (tlsOk : Bool)
    (ehloMsg : String) (script : List NetEv) :
    ∀ a ∈ (starttlsPhase mxHost cfg tlsOk ehloMsg script).2.2,
      a = Action.send "STARTTLS" ∨ a = Action.upgradeTLS mxHost true ∨
        a = Action.send ("EHLO " ++ clientHello) := by
  intro a ha
  by_cases h1 : (cfg.tlsRequired.getD false && !hasSTARTTLS ehloMsg) = true
  · simp [starttlsPhase, h1] at ha
  · by_cases h2 : (hasSTARTTLS ehloMsg &&
        (cfg.tlsRequired.getD false || cfg.tlsRequired != some false)) = true
    · cases script with
      | nil => simp [starttlsPhase, h1, h2] at ha; tauto
      | cons ev rest =>
        cases ev with
        | fail m => simp [starttlsPhase, h1, h2] at ha; tauto
        | resp c m0 =>
          by_cases hc : c = 220
          · by_cases htls : tlsOk = true
            · cases rest with
              | nil => simp [starttlsPhase, h1, h2, hc, htls] at ha; tauto
              | cons ev2 rest2 =>
                cases ev2 with
                | fail m => simp [starttlsPhase, h1, h2, hc, htls] at ha; tauto
                | resp c2 m2 =>
                  by_cases hc2 : c2 = 250 <;>
                    simp [starttlsPhase, h1, h2, hc, htls, hc2] at ha <;> tauto
            · have hf : tlsOk = false := by simpa using htls
              simp [starttlsPhase, h1, h2, hc, hf] at ha; tauto
          · simp [starttlsPhase, h1, h2, hc] at ha; tauto
    · simp [starttlsPhase, h1, h2] at ha

lemma mailFromPhase_acts (cfg : SMTPConfig) (script : List NetEv) :
    ∀ a ∈ (mailFromPhase cfg script).2.2,
      a = Action.send ("MAIL FROM:<" ++ cfg.sender.getD "verify@mailtester.local" ++ ">") := by
  intro a ha
  cases script with
  | nil => simp [mailFromPhase] at ha; tauto
  | cons ev rest =>
    cases ev with
    | fail m => simp [mailFromPhase] at ha; tauto
    | resp c m0 =>
      by_cases hc : c = 250 <;> simp [mailFromPhase, hc] at ha <;> tauto

lemma rcptPhase_acts (email : String) (script : List NetEv) :
    ∀ a ∈ (rcptPhase email script).2.2,
      a = Action.send ("RCPT TO:<" ++ email ++ ">") := by
  intro a ha
  cases script with
  | nil => simp [rcptPhase] at ha; tauto
  | cons ev rest =>
    cases ev with
    | fail m => simp [rcptPhase] at ha; tauto
    | resp c m0 =>
      by_cases h1 : c = 250 ∨ c = 251
      · simp [rcptPhase, h1] at ha; tauto
      · by_cases h2 : c = 450 ∨ c = 451
        · simp [rcptPhase, h1, h2] at ha; tauto
        · by_cases h3 : c = 550 ∨ c = 551 ∨ c = 553 <;>
            simp [rcptPhase, h1, h2, h3] at ha <;> tauto

lemma probeCore_acts (email mxHost : String) (cfg : SMTPConfig) (tlsOk : Bool)
    (script : List NetEv) :
    ∀ a ∈ (probeCore email mxHost cfg tlsOk script).2,
      a = Action.send ("EHLO " ++ clientHello) ∨
      a = Action.send ("HELO " ++ clientHello) ∨
      a = Action.send "STARTTLS" ∨ a = Action.upgradeTLS mxHost true ∨
      a = Action.send ("MAIL FROM:<" ++ cfg.sender.getD "verify@mailtester.local" ++ ">") ∨
      a = Action.send ("RCPT TO:<" ++ email ++ ">") := by
  intro a ha
  cases script with
  | nil => simp [probeCore] at ha
  | cons ev rest =>
    cases ev with
    | fail m => simp [probeCore] at ha
    | resp c m0 =>
      by_cases hc : c = 220
      · rcases he : ehloPhase rest with ⟨o1, r2, a1⟩
        have hmem1 : ∀ x ∈ a1,
            x = Action.send ("EHLO " ++ clientHello) ∨
              x = Action.send ("HELO " ++ clientHello) := by
          intro x hx
          exact ehloPhase_acts rest x (by rw [he]; exact hx)
        cases o1 with
        | error e =>
          have hacts : (probeCore email mxHost cfg tlsOk (NetEv.resp c m0 :: rest)).2 = a1 := by
            simp [probeCore, hc, he]
          rw [hacts] at ha
          have := hmem1 a ha
          tauto
        | ok msg =>
          rcases hs : starttlsPhase mxHost cfg tlsOk msg r2 with ⟨o2, r3, a2⟩
          have hmem2 : ∀ x ∈ a2,
              x = Action.send "STARTTLS" ∨ x = Action.upgradeTLS mxHost true ∨
                x = Action.send ("EHLO " ++ clientHello) := by
            intro x hx
            exact starttlsPhase_acts mxHost cfg tlsOk msg r2 x (by rw [hs]; exact hx)
          cases o2 with
          | error e =>
            have hacts : (probeCore email mxHost cfg tlsOk (NetEv.resp c m0 :: rest)).2 =
                a1 ++ a2 := by
              simp [probeCore, hc, he, hs]
            rw [hacts] at ha
            rcases List.mem_append.1 ha with ha2 | ha2
            · have := hmem1 a ha2; tauto
            · have := hmem2 a ha2; tauto
          | ok u =>
            rcases hm : mailFromPhase cfg r3 with ⟨o3, r4, a3⟩
            have hmem3 : ∀ x ∈ a3,
                x = Action.send
                  ("MAIL FROM:<" ++ cfg.sender.getD "verify@mailtester.local" ++ ">") := by
              intro x hx
              exact mailFromPhase_acts cfg r3 x (by rw [hm]; exact hx)
            cases o3 with
            | error e =>
              have hacts : (probeCore email mxHost cfg tlsOk (NetEv.resp c m0 :: rest)).2 =
                  a1 ++ a2 ++ a3 := by
                simp [probeCore, hc, he, hs, hm]
              rw [hacts] at ha
              rcases List.mem_append.1 ha with ha2 | ha2
              · rcases List.mem_append.1 ha2 with ha3 | ha3
                · have := hmem1 a ha3; tauto
                · have := hmem2 a ha3; tauto
              · have := hmem3 a ha2; tauto
            | ok u2 =>
              by_cases hv : cfg.verifyMailbox.getD true = true
              · rcases hr : rcptPhase email r4 with ⟨o4, r5, a4⟩
                have hmem4 : ∀ x ∈ a4,
                    x = Action.send ("RCPT TO:<" ++ email ++ ">") := by
                  intro x hx
                  exact rcptPhase_acts email r4 x (by rw [hr]; exact hx)
                have hacts : (probeCore email mxHost cfg tlsOk (NetEv.resp c m0 :: rest)).2 =
                    a1 ++ a2 ++ a3 ++ a4 := by
                  simp [probeCore, hc, he, hs, hm, hv, hr]
                rw [hacts] at ha
                rcases List.mem_append.1 ha with ha2 | ha2
                · rcases List.mem_append.1 ha2 with ha3 | ha3
                  · rcases List.mem_append.1 ha3 with ha4 | ha4
                    · have := hmem1 a ha4; tauto
                    · have := hmem2 a ha4; tauto
                  · have := hmem3 a ha3; tauto
                · have := hmem4 a ha2; tauto
              · have hacts : (probeCore email mxHost cfg tlsOk (NetEv.resp c m0 :: rest)).2 =
                    a1 ++ a2 ++ a3 := by
                  simp [probeCore, hc, he, hs, hm, hv]
                rw [hacts] at ha
                rcases List.mem_append.1 ha with ha2 | ha2
                · rcases List.mem_append.1 ha2 with ha3 | ha3
                  · have := hmem1 a ha3; tauto
                  · have := hmem2 a ha3; tauto
                · have := hmem3 a ha2; tauto
      · simp [probeCore, hc] at ha

lemma quit_notin_probeCore (email mxHost : String) (cfg : SMTPConfig) (tlsOk : Bool)
    (script : List NetEv) :
    Action.send "QUIT" ∉ (probeCore email mxHost cfg tlsOk script).2 := by
  intro hmem
  rcases probeCore_acts email mxHost cfg tlsOk script _ hmem with h | h | h | h | h | h
  · exact absurd h (by decide)
  · exact absurd h (by decide)
  · exact absurd h (by decide)
  · exact absurd h (by simp)
  · have hstr : "QUIT" = "MAIL FROM:<" ++ cfg.sender.getD "verify@mailtester.local" ++ ">" := by
      injection h
    have := congrArg (fun s => s.data.head?) hstr
    simp [String.data_append] at this
  · have hstr : "QUIT" = "RCPT TO:<" ++ email ++ ">" := by injection h
    have := congrArg (fun s => s.data.head?) hstr
    simp [String.data_append] at this

lemma starttlsPhase_optout (mxHost msg : String) (tlsOk : Bool) (script : List NetEv)
    (cfg : SMTPConfig) (h : cfg.tlsRequired = some false) :
    starttlsPhase mxHost cfg tlsOk msg script = (Except.ok (), script, []) := by
  simp [starttlsPhase, h]

lemma starttlsPhase_sends (mxHost : String) (cfg : SMTPConfig) (tlsOk : Bool)
    (msg : String) (script : List NetEv)
    (hs : hasSTARTTLS msg = true) (hopt : cfg.tlsRequired ≠ some false) :
    ∃ tail, (starttlsPhase mxHost cfg tlsOk msg script).2.2 =
      Action.send "STARTTLS" :: tail := by
  have hbne : (cfg.tlsRequired != some false) = true := bne_iff_ne.2 hopt
  have h1 : (cfg.tlsRequired.getD false && !hasSTARTTLS msg) = false := by simp [hs]
  have h2 : (hasSTARTTLS msg &&
      (cfg.tlsRequired.getD false || cfg.tlsRequired != some false)) = true := by
    simp [hs, hbne]
  cases script with
  | nil => exact ⟨[], by simp [starttlsPhase, h1, h2]⟩
  | cons ev rest =>
    cases ev with
    | fail m => exact ⟨[], by simp [starttlsPhase, h1, h2]⟩
    | resp c m0 =>
      by_cases hc : c = 220
      · by_cases htls : tlsOk = true
        · exact ⟨[Action.upgradeTLS mxHost true, Action.send ("EHLO " ++ clientHello)],
            by
              cases rest with
              | nil => simp [starttlsPhase, h1, h2, hc, htls]
              | cons ev2 rest2 =>
                cases ev2 with
                | fail m => simp [starttlsPhase, h1, h2, hc, htls]
                | resp c2 m2 =>
                  by_cases hc2 : c2 = 250 <;>
                    simp [starttlsPhase, h1, h2, hc, htls, hc2]⟩
        · have hf : tlsOk = false := by simpa using htls
          exact ⟨[Action.upgradeTLS mxHost true], by simp [starttlsPhase, h1, h2, hc, hf]⟩
      · exact ⟨[], by simp [starttlsPhase, h1, h2, hc]⟩

lemma starttlsPhase_upgrade_acts (mxHost : String) (cfg : SMTPConfig)
    (msg m2 : String) (rest2 : List NetEv)
    (hs : hasSTARTTLS msg = true) (hopt : cfg.tlsRequired ≠ some false) :
    (starttlsPhase mxHost cfg true msg (NetEv.resp 220 m2 :: rest2)).2.2 =
      [Action.send "STARTTLS", Action.upgradeTLS mxHost true,
       Action.send ("EHLO " ++ clientHello)] := by
  have hbne : (cfg.tlsRequired != some false) = true := bne_iff_ne.2 hopt
  have h1 : (cfg.tlsRequired.getD false && !hasSTARTTLS msg) = false := by simp [hs]
  have h2 : (hasSTARTTLS msg &&
      (cfg.tlsRequired.getD false || cfg.tlsRequired != some false)) = true := by
    simp [hs, hbne]
  cases rest2 with
  | nil => simp [starttlsPhase, h1, h2]
  | cons ev2 rest3 =>
    cases ev2 with
    | fail m => simp [starttlsPhase, h1, h2]
    | resp c2 mm =>
      by_cases hc2 : c2 = 250 <;> simp [starttlsPhase, h1, h2, hc2]

lemma probeCore_shaped (email mxHost g msg : String) (cfg : SMTPConfig) (tlsOk : Bool)
    (rest : List NetEv) :
    ∃ more,
      (probeCore email mxHost cfg tlsOk
          (NetEv.resp 220 g :: NetEv.resp 250 msg :: rest)).2 =
        Action.send ("EHLO " ++ clientHello) ::
          ((starttlsPhase mxHost cfg tlsOk msg rest).2.2 ++ more) ∧
      ∀ x ∈ more,
        x = Action.send ("MAIL FROM:<" ++ cfg.sender.getD "verify@mailtester.local" ++ ">") ∨
          x = Action.send ("RCPT TO:<" ++ email ++ ">") := by
  have hehlo : ehloPhase (NetEv.resp 250 msg :: rest) =
      (Except.ok msg, rest, [Action.send ("EHLO " ++ clientHello)]) := by
    simp [ehloPhase]
  rcases hs : starttlsPhase mxHost cfg tlsOk msg rest with ⟨o2, r3, a2⟩
  cases o2 with
  | error e =>
    refine ⟨[], ?_, by simp⟩
    simp [probeCore, hehlo, hs]
  | ok u =>
    rcases hm : mailFromPhase cfg r3 with ⟨o3, r4, a3⟩
    have hm3 : ∀ x ∈ a3,
        x = Action.send
          ("MAIL FROM:<" ++ cfg.sender.getD "verify@mailtester.local" ++ ">") :=
      fun x hx => mailFromPhase_acts cfg r3 x (by rw [hm]; exact hx)
    cases o3 with
    | error e =>
      refine ⟨a3, ?_, fun x hx => Or.inl (hm3 x hx)⟩
      simp [probeCore, hehlo, hs, hm]
    | ok u2 =>
      by_cases hv : cfg.verifyMailbox.getD true = true
      · rcases hr : rcptPhase email r4 with ⟨o4, r5, a4⟩
        have hm4 : ∀ x ∈ a4, x = Action.send ("RCPT TO:<" ++ email ++ ">") :=
          fun x hx => rcptPhase_acts email r4 x (by rw [hr]; exact hx)
        refine ⟨a3 ++ a4, ?_, ?_⟩
        · simp [probeCore, hehlo, hs, hm, hv, hr]
        · intro x hx
          rcases List.mem_append.1 hx with h | h
          · exact Or.inl (hm3 x h)
          · exact Or.inr (hm4 x h)
      · refine ⟨a3, ?_, fun x hx => Or.inl (hm3 x hx)⟩
        simp [probeCore, hehlo, hs, hm, hv]

lemma probe_trace (email mxHost : String) (cfg : SMTPConfig) (tlsOk : Bool)
    (script : List NetEv) :
    (probe email mxHost cfg true tlsOk script).2 =
      Action.connect :: (probeCore email mxHost cfg tlsOk script).2 ++
        (match (probeCore email mxHost cfg tlsOk script).1 with
         | Except.ok _ => [Action.destroy]
         | Except.error _ => [Action.send "QUIT", Action.destroy]) := by
  rcases hp : probeCore email mxHost cfg tlsOk script with ⟨out, acts⟩
  cases out <;> simp [probe, hp]

lemma probe_fst (email mxHost : String) (cfg : SMTPConfig) (tlsOk : Bool)
    (script : List NetEv) :
    (probe email mxHost cfg true tlsOk script).1 =
      (probeCore email mxHost cfg tlsOk script).1 := by
  rcases hp : probeCore email mxHost cfg tlsOk script with ⟨out, acts⟩
  cases out <;> simp [probe, hp]

/-! ## C4: SMTP cleanup -/

/-- C4 counterexample: a fully successful probe (connect, greeting 220, EHLO
250, MAIL FROM 250, `verifyMailbox` disabled) destroys the socket but never
sends `QUIT` - the `QUIT` exchange happens only in the `catch` block
(smtp.ts lines 443-456), not on returning paths. -/
theorem smtp_quit_counterexample :
    probe "user@example.com" "mx.example.com" smtpNoVerifyCfg true true smtpOkScript =
      (Except.ok { valid := true, mailboxExists := false, greylisted := false },
        [Action.connect, Action.send ("EHLO " ++ clientHello),
         Action.send "MAIL FROM:<verify@mailtester.local>", Action.destroy]) ∧
    Action.send "QUIT" ∉
      (probe "user@example.com" "mx.example.com" smtpNoVerifyCfg true true smtpOkScript).2 :=
  ⟨rfl, by decide⟩

/-- C4 amended: whenever the connect step succeeds, the probe destroys the
socket on every exit path (the trace's last action is `destroy`), and it
attempts the `QUIT` exchange exactly on the exception exit paths; returning
paths close the socket without sending `QUIT`. -/
theorem smtp_cleanup (email mxHost : String) (cfg : SMTPConfig) (tlsOk : Bool)
    (script : List NetEv) (connectOk : Bool) (h : connectOk = true) :
    ((probe email mxHost cfg connectOk tlsOk script).2.getLast? = some Action.destroy) ∧
    (∀ e, (probe email mxHost cfg connectOk tlsOk script).1 = Except.error e →
      Action.send "QUIT" ∈ (probe email mxHost cfg connectOk tlsOk script).2) ∧
    (∀ r, (probe email mxHost cfg connectOk tlsOk script).1 = Except.ok r →
      Action.send "QUIT" ∉ (probe email mxHost cfg connectOk tlsOk script).2) := by
  subst h
  rcases hp : probeCore email mxHost cfg tlsOk script with ⟨out, acts⟩
  cases out with
  | ok r =>
    have hpr : probe email mxHost cfg true tlsOk script =
        (Except.ok r, Action.connect :: acts ++ [Action.destroy]) := by
      simp [probe, hp]
    refine ⟨?_, ?_, ?_⟩
    · rw [hpr]
      show (Action.connect :: (acts ++ [Action.destroy])).getLast? = some Action.destroy
      rw [← List.cons_append, List.getLast?_append_cons]
      rfl
    · intro e he
      rw [hpr] at he
      simp at he
    · intro r2 _
      rw [hpr]
      intro hmem
      have hsplit : Action.send "QUIT" = Action.connect ∨
          Action.send "QUIT" ∈ acts ∨ Action.send "QUIT" = Action.destroy := by
        simpa using hmem
      have hnotin : Action.send "QUIT" ∉ acts := by
        have h0 := quit_notin_probeCore email mxHost cfg tlsOk script
        rw [hp] at h0
        exact h0
      rcases hsplit with h1 | h1 | h1
      · exact absurd h1 (by decide)
      · exact hnotin h1
      · exact absurd h1 (by decide)
  | error e =>
    have hpr : probe email mxHost cfg true tlsOk script =
        (Except.error e, Action.connect :: acts ++ [Action.send "QUIT", Action.destroy]) := by
      simp [probe, hp]
    refine ⟨?_, ?_, ?_⟩
    · rw [hpr]
      show (Action.connect ::
        (acts ++ [Action.send "QUIT", Action.destroy])).getLast? = some Action.destroy
      rw [← List.cons_append, List.getLast?_append_cons]
      rfl
    · intro e2 _
      rw [hpr]
      simp
    · intro r2 hr2
      rw [hpr] at hr2
      simp at hr2

/-- C4 amended witness: a probe whose RCPT step gets an unclassified code
(421) throws, and its trace contains `QUIT` and ends with `destroy`. -/
theorem smtp_cleanup_witness :
    ((probe "user@example.com" "mx.example.com" { tlsRequired := some false } true true
        [NetEv.resp 220 "hi", NetEv.resp 250 "ok", NetEv.resp 250 "ok",
         NetEv.resp 421 "busy"]).2.getLast? = some Action.destroy) ∧
    (∀ e, (probe "user@example.com" "mx.example.com" { tlsRequired := some false } true true
        [NetEv.resp 220 "hi", NetEv.resp 250 "ok", NetEv.resp 250 "ok",
         NetEv.resp 421 "busy"]).1 = Except.error e →
      Action.send "QUIT" ∈
        (probe "user@example.com" "mx.example.com" { tlsRequired := some false } true true
          [NetEv.resp 220 "hi", NetEv.resp 250 "ok", NetEv.resp 250 "ok",
           NetEv.resp 421 "busy"]).2) ∧
    (∀ r, (probe "user@example.com" "mx.example.com" { tlsRequired := some false } true true
        [NetEv.resp 220 "hi", NetEv.resp 250 "ok", NetEv.resp 250 "ok",
         NetEv.resp 421 "busy"]).1 = Except.ok r →
      Action.send "QUIT" ∉
        (probe "user@example.com" "mx.example.com" { tlsRequired := some false } true true
          [NetEv.resp 220 "hi", NetEv.resp 250 "ok", NetEv.resp 250 "ok",
           NetEv.resp 421 "busy"]).2) :=
  smtp_cleanup "user@example.com" "mx.example.com" { tlsRequired := some false } true
    [NetEv.resp 220 "hi", NetEv.resp 250 "ok", NetEv.resp 250 "ok", NetEv.resp 421 "busy"]
    true rfl

/-! ## C5: STARTTLS negotiation -/

/-- C5 counterexample: with `tlsRequired` explicitly `false` - exactly what
`SMTPValidator.validate` always passes (smtp.ts lines 594-600) - a server
that advertises STARTTLS in its EHLO response is never sent `STARTTLS`
(smtp.ts line 333 requires `tlsRequired || config.tlsRequired !== false`);
the probe continues in plaintext and succeeds, though the claim says the
upgrade also happens opportunistically when `tlsRequired` is false. -/
theorem starttls_optout_counterexample :
    hasSTARTTLS "250-STARTTLS" = true ∧
    (probe "user@example.com" "mx.example.com" { tlsRequired := some false } true true
        starttlsAdvScript).1 =
      Except.ok { valid := true, mailboxExists := true, greylisted := false } ∧
    Action.send "STARTTLS" ∉
      (probe "user@example.com" "mx.example.com" { tlsRequired := some false } true true
        starttlsAdvScript).2 :=
  ⟨by decide, rfl, by decide⟩

/-- C5 amended: over a handshake whose greeting is 220 and whose EHLO
response is 250 with message `msg`: when STARTTLS is advertised and
`tlsRequired` is true or left unset, the probe sends `STARTTLS`; on a 220
response it upgrades to TLS using the target host as server name while
accepting self-signed certificates and re-sends EHLO; a non-220 response is
a connection failure; if `tlsRequired` is true and STARTTLS is not
advertised, the probe fails immediately, sending nothing after EHLO except
the cleanup QUIT; and when `tlsRequired` is explicitly false (as the SMTP
validator always passes) `STARTTLS` is never sent. -/
theorem starttls_negotiation (email mxHost g msg : String) (cfg : SMTPConfig)
    (tlsOk : Bool) (rest : List NetEv) :
    (hasSTARTTLS msg = true → cfg.tlsRequired ≠ some false →
      Action.send "STARTTLS" ∈
        (probe email mxHost cfg true tlsOk
          (NetEv.resp 220 g :: NetEv.resp 250 msg :: rest)).2) ∧
    (hasSTARTTLS msg = true → cfg.tlsRequired ≠ some false →
      ∀ m2 rest2, rest = NetEv.resp 220 m2 :: rest2 →
        List.take 5 (probe email mxHost cfg true true
            (NetEv.resp 220 g :: NetEv.resp 250 msg :: rest)).2 =
          [Action.connect, Action.send ("EHLO " ++ clientHello), Action.send "STARTTLS",
           Action.upgradeTLS mxHost true, Action.send ("EHLO " ++ clientHello)]) ∧
    (hasSTARTTLS msg = true → cfg.tlsRequired ≠ some false →
      ∀ c2 m2 rest2, rest = NetEv.resp c2 m2 :: rest2 → c2 ≠ 220 →
        (probe email mxHost cfg true tlsOk
            (NetEv.resp 220 g :: NetEv.resp 250 msg :: rest)).1 =
          Except.error (ProbeErr.connFailed "STARTTLS failed")) ∧
    (cfg.tlsRequired = some true → hasSTARTTLS msg = false →
      (probe email mxHost cfg true tlsOk
          (NetEv.resp 220 g :: NetEv.resp 250 msg :: rest)).1 =
        Except.error
          (ProbeErr.connFailed "TLS required but server does not support STARTTLS") ∧
      (probe email mxHost cfg true tlsOk
          (NetEv.resp 220 g :: NetEv.resp 250 msg :: rest)).2 =
        [Action.connect, Action.send ("EHLO " ++ clientHello),
         Action.send "QUIT", Action.destroy]) ∧
    (cfg.tlsRequired = some false →
      Action.send "STARTTLS" ∉
        (probe email mxHost cfg true tlsOk
          (NetEv.resp 220 g :: NetEv.resp 250 msg :: rest)).2) := by
  have hehlo : ehloPhase (NetEv.resp 250 msg :: rest) =
      (Except.ok msg, rest, [Action.send ("EHLO " ++ clientHello)]) := by
    simp [ehloPhase]
  refine ⟨?_, ?_, ?_, ?_, ?_⟩
  · intro hs0 hopt
    obtain ⟨tail, htail⟩ := starttlsPhase_sends mxHost cfg tlsOk msg rest hs0 hopt
    obtain ⟨more, hmore, _⟩ := probeCore_shaped email mxHost g msg cfg tlsOk rest
    have hmem : Action.send "STARTTLS" ∈
        (probeCore email mxHost cfg tlsOk
          (NetEv.resp 220 g :: NetEv.resp 250 msg :: rest)).2 := by
      rw [hmore, htail]
      simp
    rw [probe_trace]
    simp [hmem]
  · intro hs0 hopt m2 rest2 hrest
    subst hrest
    obtain ⟨more, hmore, _⟩ := probeCore_shaped email mxHost g msg cfg true
      (NetEv.resp 220 m2 :: rest2)
    rw [probe_trace, hmore, starttlsPhase_upgrade_acts mxHost cfg msg m2 rest2 hs0 hopt]
    simp [List.take]
  · intro hs0 hopt c2 m2 rest2 hrest hc2
    subst hrest
    have hbne : (cfg.tlsRequired != some false) = true := bne_iff_ne.2 hopt
    have h1 : (cfg.tlsRequired.getD false && !hasSTARTTLS msg) = false := by simp [hs0]
    have h2 : (hasSTARTTLS msg &&
        (cfg.tlsRequired.getD false || cfg.tlsRequired != some false)) = true := by
      simp [hs0, hbne]
    have hsp : starttlsPhase mxHost cfg tlsOk msg (NetEv.resp c2 m2 :: rest2) =
        (Except.error (ProbeErr.connFailed "STARTTLS failed"), rest2,
          [Action.send "STARTTLS"]) := by
      simp [starttlsPhase, h1, h2, hc2]
    rw [probe_fst]
    simp [probeCore, hehlo, hsp]
  · intro hreq hs0
    have hsp : starttlsPhase mxHost cfg tlsOk msg rest =
        (Except.error
          (ProbeErr.connFailed "TLS required but server does not support STARTTLS"),
          rest, []) := by
      simp [starttlsPhase, hreq, hs0]
    constructor
    · rw [probe_fst]
      simp [probeCore, hehlo, hsp]
    · have hcore : (probeCore email mxHost cfg tlsOk
          (NetEv.resp 220 g :: NetEv.resp 250 msg :: rest)) =
          (Except.error
            (ProbeErr.connFailed "TLS required but server does not support STARTTLS"),
            [Action.send ("EHLO " ++ clientHello)]) := by
        simp [probeCore, hehlo, hsp]
      simp [probe, hcore]
  · intro hopt hmem
    obtain ⟨more, hmore, hmemmore⟩ := probeCore_shaped email mxHost g msg cfg tlsOk rest
    rw [starttlsPhase_optout mxHost msg tlsOk rest cfg hopt] at hmore
    rw [probe_trace, hmore] at hmem
    have hsplit : Action.send "STARTTLS" = Action.send ("EHLO " ++ clientHello) ∨
        Action.send "STARTTLS" ∈ more ∨
        Action.send "STARTTLS" = Action.send "QUIT" ∨
        Action.send "STARTTLS" = Action.destroy := by
      rcases hout : (probeCore email mxHost cfg tlsOk
          (NetEv.resp 220 g :: NetEv.resp 250 msg :: rest)).1 with e | r
      · rw [hout] at hmem
        simp at hmem
        tauto
      · rw [hout] at hmem
        simp at hmem
        tauto
    rcases hsplit with h | h | h | h
    · exact absurd h (by decide)
    · rcases hmemmore _ h with hx | hx
      · have hstr : "STARTTLS" =
            "MAIL FROM:<" ++ cfg.sender.getD "verify@mailtester.local" ++ ">" := by
          injection hx
        have := congrArg (fun s => s.data.head?) hstr
        simp [String.data_append] at this
      · have hstr : "STARTTLS" = "RCPT TO:<" ++ email ++ ">" := by injection hx
        have := congrArg (fun s => s.data.head?) hstr
        simp [String.data_append] at this
    · exact absurd h (by decide)
    · exact absurd h (by decide)

/-- C5 amended witness: concrete runs exercising the opportunistic-unset,
required-and-advertised, and explicitly-disabled branches. -/
theorem starttls_negotiation_witness :
    (hasSTARTTLS "250-STARTTLS ok" = true → (none : Option Bool) ≠ some false →
      Action.send "STARTTLS" ∈
        (probe "u@d.com" "mx.d.com" { tlsRequired := none } true true
          (NetEv.resp 220 "hi" :: NetEv.resp 250 "250-STARTTLS ok" ::
            [NetEv.resp 220 "go", NetEv.resp 250 "ok", NetEv.resp 250 "ok",
             NetEv.resp 250 "ok"])).2) ∧
    (hasSTARTTLS "250-STARTTLS ok" = true → (none : Option Bool) ≠ some false →
      ∀ m2 rest2,
        ([NetEv.resp 220 "go", NetEv.resp 250 "ok", NetEv.resp 250 "ok",
          NetEv.resp 250 "ok"] : List NetEv) = NetEv.resp 220 m2 :: rest2 →
        List.take 5 (probe "u@d.com" "mx.d.com" { tlsRequired := none } true true
            (NetEv.resp 220 "hi" :: NetEv.resp 250 "250-STARTTLS ok" ::
              [NetEv.resp 220 "go", NetEv.resp 250 "ok", NetEv.resp 250 "ok",
               NetEv.resp 250 "ok"])).2 =
          [Action.connect, Action.send ("EHLO " ++ clientHello), Action.send "STARTTLS",
           Action.upgradeTLS "mx.d.com" true, Action.send ("EHLO " ++ clientHello)]) ∧
    (hasSTARTTLS "250-STARTTLS ok" = true → (none : Option Bool) ≠ some false →
      ∀ c2 m2 rest2,
        ([NetEv.resp 220 "go", NetEv.resp 250 "ok", NetEv.resp 250 "ok",
          NetEv.resp 250 "ok"] : List NetEv) = NetEv.resp c2 m2 :: rest2 → c2 ≠ 220 →
        (probe "u@d.com" "mx.d.com" { tlsRequired := none } true true
            (NetEv.resp 220 "hi" :: NetEv.resp 250 "250-STARTTLS ok" ::
              [NetEv.resp 220 "go", NetEv.resp 250 "ok", NetEv.resp 250 "ok",
               NetEv.resp 250 "ok"])).1 =
          Except.error (ProbeErr.connFailed "STARTTLS failed")) ∧
    (({ tlsRequired := none } : SMTPConfig).tlsRequired = some true →
      hasSTARTTLS "250-STARTTLS ok" = false →
      (probe "u@d.com" "mx.d.com" { tlsRequired := none } true true
          (NetEv.resp 220 "hi" :: NetEv.resp 250 "250-STARTTLS ok" ::
            [NetEv.resp 220 "go", NetEv.resp 250 "ok", NetEv.resp 250 "ok",
             NetEv.resp 250 "ok"])).1 =
        Except.error
          (ProbeErr.connFailed "TLS required but server does not support STARTTLS") ∧
      (probe "u@d.com" "mx.d.com" { tlsRequired := none } true true
          (NetEv.resp 220 "hi" :: NetEv.resp 250 "250-STARTTLS ok" ::
            [NetEv.resp 220 "go", NetEv.resp 250 "ok", NetEv.resp 250 "ok",
             NetEv.resp 250 "ok"])).2 =
        [Action.connect, Action.send ("EHLO " ++ clientHello),
         Action.send "QUIT", Action.destroy]) ∧
    (({ tlsRequired := none } : SMTPConfig).tlsRequired = some false →
      Action.send "STARTTLS" ∉
        (probe "u@d.com" "mx.d.com" { tlsRequired := none } true true
          (NetEv.resp 220 "hi" :: NetEv.resp 250 "250-STARTTLS ok" ::
            [NetEv.resp 220 "go", NetEv.resp 250 "ok", NetEv.resp 250 "ok",
             NetEv.resp 250 "ok"])).2) :=
  starttls_negotiation "u@d.com" "mx.d.com" "hi" "250-STARTTLS ok"
    { tlsRequired := none } true
    [NetEv.resp 220 "go", NetEv.resp 250 "ok", NetEv.resp 250 "ok", NetEv.resp 250 "ok"]

/-! ## C6: RCPT TO classification -/

/-- C6: over a successful plaintext handshake with `verifyMailbox` enabled,
the RCPT TO response code is classified as: 250/251 mailbox exists
(`valid = true`), 450/451 greylisted (`valid = false, greylisted = true`),
550/551/553 mailbox absent (`valid = false, greylisted = false`), anything
else a connection-failed error; with `verifyMailbox` disabled the RCPT step
is skipped and connection success yields `valid = true` with
`mailboxExists = false`. -/
theorem rcpt_classification (email mxHost g msg f rm : String) (code : Nat) :
    ((code = 250 ∨ code = 251) →
      (probe email mxHost { tlsRequired := some false, verifyMailbox := some true } true true
          [NetEv.resp 220 g, NetEv.resp 250 msg, NetEv.resp 250 f, NetEv.resp code rm]).1 =
        Except.ok { valid := true, mailboxExists := true, greylisted := false }) ∧
    ((code = 450 ∨ code = 451) →
      (probe email mxHost { tlsRequired := some false, verifyMailbox := some true } true true
          [NetEv.resp 220 g, NetEv.resp 250 msg, NetEv.resp 250 f, NetEv.resp code rm]).1 =
        Except.ok { valid := false, mailboxExists := false, greylisted := true }) ∧
    ((code = 550 ∨ code = 551 ∨ code = 553) →
      (probe email mxHost { tlsRequired := some false, verifyMailbox := some true } true true
          [NetEv.resp 220 g, NetEv.resp 250 msg, NetEv.resp 250 f, NetEv.resp code rm]).1 =
        Except.ok { valid := false, mailboxExists := false, greylisted := false }) ∧
    (¬(code = 250 ∨ code = 251) → ¬(code = 450 ∨ code = 451) →
      ¬(code = 550 ∨ code = 551 ∨ code = 553) →
      (probe email mxHost { tlsRequired := some false, verifyMailbox := some true } true true
          [NetEv.resp 220 g, NetEv.resp 250 msg, NetEv.resp 250 f, NetEv.resp code rm]).1 =
        Except.error (ProbeErr.connFailed "RCPT TO failed")) ∧
    ((probe email mxHost { tlsRequired := some false, verifyMailbox := some false } true true
        [NetEv.resp 220 g, NetEv.resp 250 msg, NetEv.resp 250 f]).1 =
      Except.ok { valid := true, mailboxExists := false, greylisted := false } ∧
      Action.send ("RCPT TO:<" ++ email ++ ">") ∉
        (probe email mxHost { tlsRequired := some false, verifyMailbox := some false } true true
          [NetEv.resp 220 g, NetEv.resp 250 msg, NetEv.resp 250 f]).2) := by
  have hehlo3 : ehloPhase [NetEv.resp 250 msg, NetEv.resp 250 f, NetEv.resp code rm] =
      (Except.ok msg, [NetEv.resp 250 f, NetEv.resp code rm],
        [Action.send ("EHLO " ++ clientHello)]) := by
    simp [ehloPhase]
  have hsp := starttlsPhase_optout mxHost msg true
    [NetEv.resp 250 f, NetEv.resp code rm]
    { tlsRequired := some false, verifyMailbox := some true } rfl
  have hmf : mailFromPhase { tlsRequired := some false, verifyMailbox := some true }
      [NetEv.resp 250 f, NetEv.resp code rm] =
      (Except.ok (), [NetEv.resp code rm],
        [Action.send ("MAIL FROM:<" ++ "verify@mailtester.local" ++ ">")]) := by
    simp [mailFromPhase]
  refine ⟨?_, ?_, ?_, ?_, ?_⟩
  · intro hcode
    rw [probe_fst]
    simp [probeCore, hehlo3, hsp, hmf, rcptPhase, hcode]
  · intro hcode
    have hne1 : ¬(code = 250 ∨ code = 251) := by omega
    rw [probe_fst]
    simp [probeCore, hehlo3, hsp, hmf, rcptPhase, hne1, hcode]
  · intro hcode
    have hne1 : ¬(code = 250 ∨ code = 251) := by omega
    have hne2 : ¬(code = 450 ∨ code = 451) := by omega
    rw [probe_fst]
    simp [probeCore, hehlo3, hsp, hmf, rcptPhase, hne1, hne2, hcode]
  · intro hne1 hne2 hne3
    rw [probe_fst]
    simp [probeCore, hehlo3, hsp, hmf, rcptPhase, hne1, hne2, hne3]
  · have hehlo2 : ehloPhase [NetEv.resp 250 msg, NetEv.resp 250 f] =
        (Except.ok msg, [NetEv.resp 250 f], [Action.send ("EHLO " ++ clientHello)]) := by
      simp [ehloPhase]
    have hsp2 := starttlsPhase_optout mxHost msg true [NetEv.resp 250 f]
      { tlsRequired := some false, verifyMailbox := some false } rfl
    have hmf2 : mailFromPhase { tlsRequired := some false, verifyMailbox := some false }
        [NetEv.resp 250 f] =
        (Except.ok (), [],
          [Action.send ("MAIL FROM:<" ++ "verify@mailtester.local" ++ ">")]) := by
      simp [mailFromPhase]
    have hcore : probeCore email mxHost
        { tlsRequired := some false, verifyMailbox := some false } true
        [NetEv.resp 220 g, NetEv.resp 250 msg, NetEv.resp 250 f] =
        (Except.ok { valid := true, mailboxExists := false, greylisted := false },
          [Action.send ("EHLO " ++ clientHello),
           Action.send ("MAIL FROM:<" ++ "verify@mailtester.local" ++ ">")]) := by
      simp [probeCore, hehlo2, hsp2, hmf2]
    constructor
    · rw [probe_fst, hcore]
    · intro hmem
      simp only [probe, hcore] at hmem
      have hsplit : Action.send ("RCPT TO:<" ++ email ++ ">") =
            Action.send ("EHLO " ++ clientHello) ∨
          Action.send ("RCPT TO:<" ++ email ++ ">") =
            Action.send ("MAIL FROM:<" ++ "verify@mailtester.local" ++ ">") := by
        simpa using hmem
      rcases hsplit with hx | hx
      · have hstr : "RCPT TO:<" ++ email ++ ">" = "EHLO " ++ clientHello := by injection hx
        have := congrArg (fun s => s.data.head?) hstr
        simp [String.data_append, clientHello] at this
      · have hstr : "RCPT TO:<" ++ email ++ ">" =
            "MAIL FROM:<" ++ "verify@mailtester.local" ++ ">" := by injection hx
        have := congrArg (fun s => s.data.head?) hstr
        simp [String.data_append] at this

/-- C6 witness: greylisting classification at code 450 on a concrete
handshake. -/
theorem rcpt_classification_witness :
    (probe "u@d.com" "mx.d.com" { tlsRequired := some false, verifyMailbox := some true }
        true true
        [NetEv.resp 220 "hi", NetEv.resp 250 "ok", NetEv.resp 250 "ok",
         NetEv.resp 450 "greylisted, try later"]).1 =
      Except.ok { valid := false, mailboxExists := false, greylisted := true } :=
  (rcpt_classification "u@d.com" "mx.d.com" "hi" "ok" "ok" "greylisted, try later"
    450).2.1 (Or.inl rfl)

/-! ## C3: bulk tallies -/

lemma tally_fold (l : List (String × AddrBehavior)) (t0 : BulkTally) :
    (l.foldl (fun t p => tallyOne t p.1 p.2) t0).total = t0.total ∧
    (l.foldl (fun t p => tallyOne t p.1 p.2) t0).valid =
      t0.valid + countValid (l.map (fun p => addrResult p.1 p.2)) ∧
    (l.foldl (fun t p => tallyOne t p.1 p.2) t0).errors =
      t0.errors + countThrows (l.map Prod.snd) ∧
    (l.foldl (fun t p => tallyOne t p.1 p.2) t0).invalid +
        (l.foldl (fun t p => tallyOne t p.1 p.2) t0).errors =
      t0.invalid + t0.errors + countInvalid (l.map (fun p => addrResult p.1 p.2)) := by
  induction l generalizing t0 with
  | nil => simp [countValid, countInvalid, countThrows]
  | cons p rest ih =>
    obtain ⟨e, b⟩ := p
    have hstep : (((e, b) :: rest).foldl (fun t p => tallyOne t p.1 p.2) t0) =
        rest.foldl (fun t p => tallyOne t p.1 p.2) (tallyOne t0 e b) := rfl
    rw [hstep]
    obtain ⟨ih1, ih2, ih3, ih4⟩ := ih (tallyOne t0 e b)
    cases b with
    | denied =>
      refine ⟨?_, ?_, ?_, ?_⟩
      · rw [ih1]; rfl
      · rw [ih2]
        simp [tallyOne, addrResult, countValid, List.filter_cons]
      · rw [ih3]
        simp [tallyOne, countThrows, List.filter_cons]
      · rw [ih4]
        simp [tallyOne, addrResult, countInvalid, List.filter_cons]
        omega
    | throws =>
      refine ⟨?_, ?_, ?_, ?_⟩
      · rw [ih1]; rfl
      · rw [ih2]
        simp [tallyOne, addrResult, countValid, List.filter_cons]
      · rw [ih3]
        simp [tallyOne, countThrows, List.filter_cons]
        omega
      · rw [ih4]
        simp [tallyOne, addrResult, countInvalid, List.filter_cons]
        omega
    | completes outs =>
      by_cases hv : (format e outs).valid = true
      · refine ⟨?_, ?_, ?_, ?_⟩
        · rw [ih1]
          simp [tallyOne, hv]
        · rw [ih2]
          simp [tallyOne, addrResult, countValid, List.filter_cons, hv]
          omega
        · rw [ih3]
          simp [tallyOne, countThrows, List.filter_cons, hv]
        · rw [ih4]
          simp [tallyOne, addrResult, countInvalid, List.filter_cons, hv]
      · have hv2 : (format e outs).valid = false := by simpa using hv
        refine ⟨?_, ?_, ?_, ?_⟩
        · rw [ih1]
          simp [tallyOne, hv2]
        · rw [ih2]
          simp [tallyOne, addrResult, countValid, List.filter_cons, hv2]
        · rw [ih3]
          simp [tallyOne, countThrows, List.filter_cons, hv2]
        · rw [ih4]
          simp [tallyOne, addrResult, countInvalid, List.filter_cons, hv2]
          omega

/-- C3 counterexample: one address whose pipeline throws (with
`continueOnError`) yields tallies `invalid = 0, errors = 1`, yet its
results-array entry has `overallValid = false` - so `invalid` does not equal
the number of results with `overallValid = false`, contrary to the claim. -/
theorem bulk_invalid_counterexample :
    processTally ["user@example.com"] [AddrBehavior.throws] true =
      some { total := 1, valid := 0, invalid := 0, errors := 1 } ∧
    countInvalid (processResults ["user@example.com"] [AddrBehavior.throws]) = 1 := by
  decide

/-- C3 amended: for every bulk call that returns, `total` is the input
length, `valid` counts results with `overallValid = true`, `errors` counts
caught per-address exceptions only (rate-limit denials are never errors),
and `invalid` counts rate-limit denials plus completed validations with
`overallValid = false` - exception-synthesized entries are counted in
`errors`, not `invalid`, so `invalid + errors` equals the number of results
with `overallValid = false`. -/
theorem bulk_tallies (emails : List String) (bs : List AddrBehavior)
    (continueOnError : Bool) (t : BulkTally)
    (hlen : emails.length = bs.length)
    (hret : processTally emails bs continueOnError = some t) :
    t.total = emails.length ∧
    t.valid = countValid (processResults emails bs) ∧
    t.errors = countThrows bs ∧
    t.invalid + t.errors = countInvalid (processResults emails bs) := by
  by_cases hemp : emails.isEmpty = true
  · have hnil : emails = [] := List.isEmpty_iff.1 hemp
    have hbs : bs = [] := by
      rw [hnil] at hlen
      exact (List.length_eq_zero.1 hlen.symm)
    subst hnil
    subst hbs
    simp [processTally] at hret
    simp [← hret, processResults, countValid, countInvalid, countThrows]
  · by_cases habort : (!continueOnError && (List.zip emails bs).any (fun p =>
        match p.2 with
        | AddrBehavior.completes _ => false
        | _ => true)) = true
    · simp [processTally, hemp, habort] at hret
    · have hret2 : tallyAll emails bs = t := by
        simp [processTally, hemp, habort] at hret
        exact hret
      have hsnd : (List.zip emails bs).map Prod.snd = bs :=
        List.map_snd_zip emails bs (le_of_eq hlen.symm)
      obtain ⟨h1, h2, h3, h4⟩ := tally_fold (List.zip emails bs)
        { total := emails.length, valid := 0, invalid := 0, errors := 0 }
      rw [← hret2]
      refine ⟨?_, ?_, ?_, ?_⟩
      · exact h1
      · simpa [processResults] using h2
      · rw [tallyAll, h3, hsnd]
        simp
      · rw [tallyAll, h4]
        simp [processResults]

/-- C3 amended witness: a denial, a passing validation, a failing
validation, and a thrown exception give total 4, valid 1, invalid 2,
errors 1, with three results having `overallValid = false`. -/
theorem bulk_tallies_witness :
    ({ total := 4, valid := 1, invalid := 2, errors := 1 } : BulkTally).total =
      (["a@b.c", "d@e.f", "g@h.i", "j@k.l"] : List String).length ∧
    ({ total := 4, valid := 1, invalid := 2, errors := 1 } : BulkTally).valid =
      countValid (processResults ["a@b.c", "d@e.f", "g@h.i", "j@k.l"]
        [AddrBehavior.denied, AddrBehavior.completes [("regex", passOutcome "regex")],
         AddrBehavior.completes [("regex",
           { valid := false, validator := "regex",
             error := some { code := "REGEX_INVALID_FORMAT", message := "bad",
                             severity := Severity.error } })],
         AddrBehavior.throws]) ∧
    ({ total := 4, valid := 1, invalid := 2, errors := 1 } : BulkTally).errors =
      countThrows
        [AddrBehavior.denied, AddrBehavior.completes [("regex", passOutcome "regex")],
         AddrBehavior.completes [("regex",
           { valid := false, validator := "regex",
             error := some { code := "REGEX_INVALID_FORMAT", message := "bad",
                             severity := Severity.error } })],
         AddrBehavior.throws] ∧
    ({ total := 4, valid := 1, invalid := 2, errors := 1 } : BulkTally).invalid +
        ({ total := 4, valid := 1, invalid := 2, errors := 1 } : BulkTally).errors =
      countInvalid (processResults ["a@b.c", "d@e.f", "g@h.i", "j@k.l"]
        [AddrBehavior.denied, AddrBehavior.completes [("regex", passOutcome "regex")],
         AddrBehavior.completes [("regex",
           { valid := false, validator := "regex",
             error := some { code := "REGEX_INVALID_FORMAT", message := "bad",
                             severity := Severity.error } })],
         AddrBehavior.throws]) :=
  bulk_tallies ["a@b.c", "d@e.f", "g@h.i", "j@k.l"]
    [AddrBehavior.denied, AddrBehavior.completes [("regex", passOutcome "regex")],
     AddrBehavior.completes [("regex",
       { valid := false, validator := "regex",
         error := some { code := "REGEX_INVALID_FORMAT", message := "bad",
                         severity := Severity.error } })],
     AddrBehavior.throws]
    true { total := 4, valid := 1, invalid := 2, errors := 1 } (by decide) (by decide)

/-! ## C9: bulk order preservation -/

lemma applyWrites_length (ws : List (Nat × ValidationResult))
    (arr : List (Option ValidationResult)) :
    (applyWrites ws arr).length = arr.length := by
  induction ws generalizing arr with
  | nil => rfl
  | cons w rest ih =>
    have hstep : applyWrites (w :: rest) arr = applyWrites rest (arr.set w.1 (some w.2)) := rfl
    rw [hstep, ih, List.length_set]

lemma applyWrites_notin (ws : List (Nat × ValidationResult))
    (arr : List (Option ValidationResult)) (i : Nat)
    (h : ∀ w ∈ ws, w.1 ≠ i) :
    (applyWrites ws arr).get? i = arr.get? i := by
  induction ws generalizing arr with
  | nil => rfl
  | cons w rest ih =>
    have hstep : applyWrites (w :: rest) arr = applyWrites rest (arr.set w.1 (some w.2)) := rfl
    rw [hstep, ih _ (fun v hv => h v (by simp [hv]))]
    exact List.get?_set_ne _ _ (h w (by simp))

lemma applyWrites_unique (ws : List (Nat × ValidationResult)) (i : Nat)
    (v : ValidationResult) (hmem : (i, v) ∈ ws)
    (hcount : ws.countP (fun w => w.1 = i) = 1)
    (arr : List (Option ValidationResult)) (hi : i < arr.length) :
    (applyWrites ws arr).get? i = some (some v) := by
  induction ws generalizing arr with
  | nil => simp at hmem
  | cons w rest ih =>
    have hstep : applyWrites (w :: rest) arr = applyWrites rest (arr.set w.1 (some w.2)) := rfl
    rw [List.countP_cons] at hcount
    by_cases hw : w.1 = i
    · have hplus : rest.countP (fun w => w.1 = i) + 1 = 1 := by
        simpa [hw] using hcount
      have hrest0 : rest.countP (fun w => w.1 = i) = 0 := by omega
      have hnotin : ∀ u ∈ rest, u.1 ≠ i :=
        fun u hu => by simpa using List.countP_eq_zero.1 hrest0 u hu
      have hv : w = (i, v) := by
        rcases List.mem_cons.1 hmem with h1 | h1
        · exact h1.symm
        · exfalso
          exact hnotin _ h1 rfl
      rw [hstep, applyWrites_notin rest _ i hnotin, hv]
      exact List.get?_set_eq_of_lt _ (by simpa using hi)
    · have hmem2 : (i, v) ∈ rest := by
        rcases List.mem_cons.1 hmem with h1 | h1
        · exact absurd (congrArg Prod.fst h1.symm) hw
        · exact h1
      have hcount2 : rest.countP (fun w => w.1 = i) = 1 := by
        simpa [hw] using hcount
      rw [hstep]
      exact ih hmem2 hcount2 _ (by simpa using hi)

lemma writesFrom_countP (l : List (String × AddrBehavior)) (k j : Nat) :
    (writesFrom k l).countP (fun w => w.1 = j) =
      if k ≤ j ∧ j < k + l.length then 1 else 0 := by
  induction l generalizing k with
  | nil =>
    simp only [writesFrom, List.countP_nil, List.length_nil]
    rw [if_neg (by omega)]
  | cons p rest ih =>
    simp only [writesFrom, List.countP_cons, ih (k + 1), List.length_cons]
    by_cases hj : k = j
    · have h1 : ¬(k + 1 ≤ j ∧ j < k + 1 + rest.length) := by omega
      have h2 : k ≤ j ∧ j < k + (rest.length + 1) := by omega
      rw [if_neg h1, if_pos h2]
      simp [hj]
    · by_cases hin : k + 1 ≤ j ∧ j < k + 1 + rest.length
      · have h2 : k ≤ j ∧ j < k + (rest.length + 1) := by omega
        rw [if_pos hin, if_pos h2]
        simp [hj]
      · have h2 : ¬(k ≤ j ∧ j < k + (rest.length + 1)) := by omega
        rw [if_neg hin, if_neg h2]
        simp [hj]

lemma writesFrom_mem (l : List (String × AddrBehavior)) (k i : Nat)
    (p : String × AddrBehavior) (hget : l.get? i = some p) :
    (k + i, addrResult p.1 p.2) ∈ writesFrom k l := by
  induction l generalizing k i with
  | nil => simp at hget
  | cons q rest ih =>
    cases i with
    | zero =>
      simp at hget
      subst hget
      simp [writesFrom]
    | succ n =>
      have hget2 : rest.get? n = some p := hget
      have := ih (k + 1) n hget2
      have harith : k + (n + 1) = k + 1 + n := by omega
      rw [harith]
      simp only [writesFrom, List.mem_cons]
      exact Or.inr this

/-- C9: for every input list and aligned per-address behaviors, applying the
bulk run's index-addressed writes in ANY order (any permutation, modelling
arbitrary completion order of the concurrent validations) fills slot `i`
with a result whose `email` field equals `emails[i]`. -/
theorem bulk_order_preservation (emails : List String) (bs : List AddrBehavior)
    (ws : List (Nat × ValidationResult))
    (hlen : emails.length = bs.length)
    (hperm : ws.Perm (bulkWrites emails bs))
    (i : Nat) (hi : i < emails.length) :
    ∃ r, (applyWrites ws (List.replicate emails.length none)).get? i = some (some r) ∧
      emails.get? i = some r.email := by
  have hibs : i < bs.length := hlen ▸ hi
  have hzlen : (List.zip emails bs).length = emails.length := by
    simp [hlen]
  have hizip : i < (List.zip emails bs).length := by rw [hzlen]; exact hi
  have hgetzip : (List.zip emails bs).get? i =
      some ((List.zip emails bs).get ⟨i, hizip⟩) := List.get?_eq_get hizip
  set p := (List.zip emails bs).get ⟨i, hizip⟩ with hp
  have hmemw : (i, addrResult p.1 p.2) ∈ bulkWrites emails bs := by
    have := writesFrom_mem (List.zip emails bs) 0 i p hgetzip
    simpa [bulkWrites] using this
  have hcountw : (bulkWrites emails bs).countP (fun w => w.1 = i) = 1 := by
    rw [bulkWrites, writesFrom_countP]
    exact if_pos ⟨Nat.zero_le i, by simpa using hizip⟩
  have hmem : (i, addrResult p.1 p.2) ∈ ws := hperm.mem_iff.2 hmemw
  have hcount : ws.countP (fun w => w.1 = i) = 1 :=
    (hperm.countP_eq _).trans hcountw
  refine ⟨addrResult p.1 p.2, ?_, ?_⟩
  · exact applyWrites_unique ws i _ hmem hcount _ (by simpa using hi)
  · have hfst : emails.get? i = some p.1 := by
      have := (List.get?_zip_eq_some emails bs p i).1 hgetzip
      exact this.1
    have hemail : (addrResult p.1 p.2).email = p.1 := by
      cases h : p.2 <;> simp [addrResult, format, h]
    rw [hfst, hemail]

/-- C9 witness: a two-address run with the writes applied in reversed
(completion) order still places each email at its own index. -/
theorem bulk_order_preservation_witness :
    ∃ r, (applyWrites
        (List.reverse (bulkWrites ["a@b.c", "d@e.f"]
          [AddrBehavior.denied, AddrBehavior.throws]))
        (List.replicate (["a@b.c", "d@e.f"] : List String).length none)).get? 0 =
      some (some r) ∧ (["a@b.c", "d@e.f"] : List String).get? 0 = some r.email :=
  bulk_order_preservation ["a@b.c", "d@e.f"] [AddrBehavior.denied, AddrBehavior.throws]
    (List.reverse (bulkWrites ["a@b.c", "d@e.f"] [AddrBehavior.denied, AddrBehavior.throws]))
    (by decide) (List.reverse_perm _) 0 (by decide)

end Mailtester
